import Mathlib

/-!
# CHIP-8 emulator (`src/chip8.js`): shallow embedding and verified properties

The JavaScript class `Chip8` is embedded as a record of its fields and one Lean
function per method.  Conventions:

* `Uint8Array` / `Uint16Array` fields are total maps `Nat → Nat`; a read outside the
  array length is `undefined` (`none`), a write outside it is ignored, and every
  write is reduced modulo the element width.
* `VRAM` is an ordinary (growable) JavaScript array, embedded as a `List Bool`;
  a hole or an index past the end reads as `undefined`, which every reader of the
  source coerces to a Boolean, so it is represented by `false`.
* Numbers that stay non-negative integers are `Nat`; the stack pointer can go
  negative and is an `Int`; the program counter can become `undefined` or `NaN`
  and has its own type.
* A thrown exception is the second component of the result of `exec` / `cycle`.
* DOM and timing code (canvas drawing, audio element, key event wiring, the
  `setTimeout` loop of the constructor) and the write-only mirror fields
  (`opcode`, `instr`, `V0` .. `VE`) carry no machine state and are left out.
-/

/-- The values the field `PC` can hold: a non-negative integer, `undefined`
(after popping outside the call stack) or `NaN` (after `undefined + 2`). -/
inductive JSNum where
  | num (n : Nat)
  | undefined
  | NaN
  deriving DecidableEq

namespace JSNum

/-- JavaScript `a + k` for a positive integer `k`. -/
def add (a : JSNum) (k : Nat) : JSNum :=
  match a with
  | num n => num (n + k)
  | undefined => NaN
  | NaN => NaN

/-- JavaScript truthiness of a number. -/
def truthy : JSNum → Bool
  | num n => n != 0
  | undefined => false
  | NaN => false

/-- The conversion applied when a value is stored into a `Uint16Array`. -/
def toUint16 : JSNum → Nat
  | num n => n % 0x10000
  | undefined => 0
  | NaN => 0

end JSNum

/-- Exceptions that can leave `exec`. `undefinedOpcode c` is
`Error("Undefined opcode: " + (opcode&0xF000).toString(16))` with `c = opcode & 0xF000`;
`typeError` is the engine's error for calling `tmp_ins[this.N]` when it is `undefined`. -/
inductive Exn where
  | undefinedOpcode (cls : Nat)
  | typeError
  deriving DecidableEq

/-- The arrow functions stored in `this.ins`, named by their (hexadecimal) key.
`h0000p` and `h0007p` are the two functions that `Object.assign` inside the
`0x8000` entry installs over the keys `0x0000` and `0x0007`. -/
inductive Handler where
  | h0000 | h8000 | hE000 | hF000 | h000A | h00E0 | h00EE
  | h1000 | h2000 | h3000 | h4000 | h5000 | h6000 | h7000 | h9000
  | hA000 | hB000 | hC000 | hD000
  | h0001 | h0002 | h0003 | h0004 | h0005 | h0006 | h0007 | h000E
  | h009E | h00A1 | h0015 | h0018 | h001E | h0029 | h0055 | h0065 | h0033
  | h0000p | h0007p
  deriving DecidableEq

/-- The object `this.ins`. Its key set never changes; what varies is the binding
`opcode` its closures captured (the word fetched by the `exec` call that built the
object) and whether `Object.assign` has already replaced the entries `0x0000` and
`0x0007`. -/
structure InsTable where
  opcode : Nat
  assigned : Bool
  deriving DecidableEq

namespace InsTable

/-- Property read `this.ins[k]` for a numeric key; `none` is `undefined`. -/
def get (t : InsTable) (k : Nat) : Option Handler :=
  if k = 0x0000 then some (if t.assigned then Handler.h0000p else Handler.h0000)
  else if k = 0x8000 then some Handler.h8000
  else if k = 0xE000 then some Handler.hE000
  else if k = 0xF000 then some Handler.hF000
  else if k = 0x000A then some Handler.h000A
  else if k = 0x00E0 then some Handler.h00E0
  else if k = 0x00EE then some Handler.h00EE
  else if k = 0x1000 then some Handler.h1000
  else if k = 0x2000 then some Handler.h2000
  else if k = 0x3000 then some Handler.h3000
  else if k = 0x4000 then some Handler.h4000
  else if k = 0x5000 then some Handler.h5000
  else if k = 0x6000 then some Handler.h6000
  else if k = 0x7000 then some Handler.h7000
  else if k = 0x9000 then some Handler.h9000
  else if k = 0xA000 then some Handler.hA000
  else if k = 0xB000 then some Handler.hB000
  else if k = 0xC000 then some Handler.hC000
  else if k = 0xD000 then some Handler.hD000
  else if k = 0x0001 then some Handler.h0001
  else if k = 0x0002 then some Handler.h0002
  else if k = 0x0003 then some Handler.h0003
  else if k = 0x0004 then some Handler.h0004
  else if k = 0x0005 then some Handler.h0005
  else if k = 0x0006 then some Handler.h0006
  else if k = 0x0007 then some (if t.assigned then Handler.h0007p else Handler.h0007)
  else if k = 0x000E then some Handler.h000E
  else if k = 0x009E then some Handler.h009E
  else if k = 0x00A1 then some Handler.h00A1
  else if k = 0x0015 then some Handler.h0015
  else if k = 0x0018 then some Handler.h0018
  else if k = 0x001E then some Handler.h001E
  else if k = 0x0029 then some Handler.h0029
  else if k = 0x0055 then some Handler.h0055
  else if k = 0x0065 then some Handler.h0065
  else if k = 0x0033 then some Handler.h0033
  else none

/-- The test `k in this.ins`. -/
def has (t : InsTable) (k : Nat) : Bool := (t.get k).isSome

/-- The table after `Object.assign(this.ins, { 0x0000: .., 0x0007: .. })`. -/
def assign (t : InsTable) : InsTable := { t with assigned := true }

end InsTable

/-- What `exec` reads from outside the instance: the `keyStates` object of the
ambient global `c8` (the keys that are present) and, for `CXNN`, the integer
`Math.round(Math.random() * this.NN)` drawn by this call. -/
structure Env where
  c8keyStates : List Nat
  random : Nat

/-- The fields of a `Chip8` instance. `keyStates` lists the keys present in the
object (the key handler only ever stores the value `true`); `beeps` counts the
evaluations of the getter `beep`, that is the tone-start signals. -/
structure Chip8 where
  playing : Bool
  RAM : Nat → Nat
  V : Nat → Nat
  VF : Nat
  I : Nat
  stack : Nat → Nat
  DT : Nat
  ST : Nat
  PC : JSNum
  SP : Int
  X : Nat
  Y : Nat
  N : Nat
  NN : Nat
  NNN : Nat
  NNNN : Nat
  keyStates : List Nat
  VRAM : List Bool
  ins : Option InsTable
  beeps : Nat

namespace Chip8

/-! ## JavaScript primitives used by the class -/

/-- Length of `this.RAM`. -/
def ramLength : Nat := 0x1000

/-- Length of `this.stack`. -/
def stackLength : Nat := 16

/-- Read of a typed array of length `len`; `none` is `undefined`. -/
def taGet (len : Nat) (a : Nat → Nat) (i : Nat) : Option Nat :=
  if i < len then some (a i) else none

/-- Write to a typed array of length `len` whose elements are reduced modulo `w`;
an index outside the array is ignored. -/
def taSet (len w : Nat) (a : Nat → Nat) (i v : Nat) : Nat → Nat :=
  if i < len then Function.update a i (v % w) else a

/-- The integer conversion of an array read in a bitwise or typed-array-store
context: `undefined` becomes `0`. -/
def toInt (v : Option Nat) : Nat := v.getD 0

/-- Conversion of a possibly negative integer stored into a `Uint8Array`. -/
def toUint8 (v : Int) : Nat := (v % 256).toNat

/-- The number stored when the Boolean `true` is written into a `Uint8Array`. -/
def trueAsUint8 : Nat := 1

/-- Write `this.V[i] = v` (register indices are decoded 4-bit fields, always in range). -/
def setV (V : Nat → Nat) (i v : Nat) : Nat → Nat := Function.update V i (v % 256)

/-- Read `this.RAM[a]`. -/
def getRAM (s : Chip8) (a : Nat) : Option Nat := taGet ramLength s.RAM a

/-- Read `this.RAM[pc]` for a program-counter value. -/
def getRAMAt (s : Chip8) : JSNum → Option Nat
  | JSNum.num a => s.getRAM a
  | JSNum.undefined => none
  | JSNum.NaN => none

/-- Read `this.VRAM[i]` coerced to a Boolean. -/
def vramGet (vram : List Bool) (i : Nat) : Bool := vram.getD i false

/-- Write `this.VRAM[i] = v`; writing past the end grows the array. This is the
behaviour of a JavaScript array for an array index, that is for `i < 2 ^ 32 - 1`
(every index `exec` can produce is below `263 + 64 * 271`). -/
def vramSet (vram : List Bool) (i : Nat) (v : Bool) : List Bool :=
  if i < vram.length then vram.set i v
  else vram ++ List.replicate (i - vram.length) false ++ [v]

/-! ## Display -/

/-- Method `clearScreen`. -/
def clearScreen (s : Chip8) : Chip8 :=
  { s with VRAM := (List.range s.VRAM.length).foldl (fun v i => vramSet v i false) s.VRAM }

/-- Method `flipPixel(x, y)` on the buffer: the new buffer and the returned Boolean. -/
def flipPixel (vram : List Bool) (x y : Nat) : List Bool × Bool :=
  let vram1 := vramSet vram (x + 64 * y) (!(vramGet vram (x + 64 * y)))
  (vram1, !(vramGet vram1 (x + 64 * y) == true))

/-- One iteration of the inner loop of the `DXYN` entry; the accumulator is
`(sprite, VRAM, VF)`. -/
def drawBit (vx vy y : Nat) (acc : Nat × List Bool × Nat) (x : Nat) : Nat × List Bool × Nat :=
  let sprite := acc.1
  let vram := acc.2.1
  let vf := acc.2.2
  if sprite &&& 0x80 ≠ 0 then
    let r := flipPixel vram (vx + x) (vy + y)
    (sprite <<< 1, r.1, if r.2 then 1 else vf)
  else (sprite <<< 1, vram, vf)

/-- One iteration of the outer loop of the `DXYN` entry; the accumulator is `(VRAM, VF)`. -/
def drawRow (s : Chip8) (acc : List Bool × Nat) (y : Nat) : List Bool × Nat :=
  let sprite := toInt (s.getRAM (s.I + y))
  ((List.range 8).foldl (drawBit (s.V s.X) (s.V s.Y) y) (sprite, acc.1, acc.2)).2

/-- The entry `0xD000` of `this.ins`. -/
def draw (s : Chip8) : Chip8 :=
  let r := (List.range s.N).foldl (drawRow s) (s.VRAM, 0)
  { s with VRAM := r.1, VF := r.2 }

/-! ## Instruction fetch and dispatch -/

/-- The fetched word `this.RAM[this.PC] << 8 | this.RAM[this.PC+1]`. -/
def fetch (s : Chip8) : Nat :=
  (toInt (s.getRAMAt s.PC) <<< 8) ||| toInt (s.getRAMAt (s.PC.add 1))

/-- JavaScript `c && n` for a Boolean `c` and a number `n`; `none` is `false`. -/
def andNum (c : Bool) (n : Nat) : Option Nat := if c then some n else none

/-- JavaScript `a || b` on values that are a number or `false`. -/
def orVal (a b : Option Nat) : Option Nat :=
  match a with
  | some n => if n != 0 then some n else b
  | none => b

/-- The dispatch key `opc` computed by `exec`; `none` is the value `false`. -/
def dispatchKey (t : InsTable) (opcode N NN : Nat) : Option Nat :=
  orVal (andNum (decide (opcode &&& 0xF000 = 0x8000) && t.has N) N)
    (orVal (andNum (decide (opcode &&& 0xF000 = 0xE000) && t.has NN) NN)
      (orVal (andNum (decide (opcode &&& 0xF000 = 0xF000) && t.has NN) NN)
        (orVal (andNum (decide (opcode &&& 0xF000 = 0x0) && t.has opcode) opcode)
          (andNum (t.has (opcode &&& 0xF000)) (opcode &&& 0xF000)))))

/-- The property read `this.ins[opc]`; the key `false` names no entry. -/
def lookup (t : InsTable) (opc : Option Nat) : Option Handler :=
  match opc with
  | some k => t.get k
  | none => none

/-- The body of every entry of `this.ins` except `0x8000` (whose body is in
`callEntry`; it is never selected by the nested call `tmp_ins[this.N]()`,
because `this.N` is a 4-bit field: `get_ne_h8000_of_lt`, `decode_N_lt`). -/
def runEntry (env : Env) (h : Handler) (s : Chip8) : Chip8 :=
  match h with
  | Handler.h0000 => s
  | Handler.h8000 => s
  | Handler.hE000 => s
  | Handler.hF000 => s
  | Handler.h000A =>
      if env.c8keyStates.length < 1 then s
      else { s with V := setV s.V s.X trueAsUint8 }
  | Handler.h00E0 => s
  | Handler.h00EE =>
      let sp := s.SP - 1
      { s with
        SP := sp
        PC := match (if 0 ≤ sp then taGet stackLength s.stack sp.toNat else none) with
              | some v => JSNum.num v
              | none => JSNum.undefined }
  | Handler.h1000 => { s with PC := JSNum.num s.NNN }
  | Handler.h2000 =>
      let slot := Int.tmod s.SP 0xC
      let s1 := { s with
        SP := s.SP + 1
        stack := if 0 ≤ slot then taSet stackLength 0x10000 s.stack slot.toNat s.PC.toUint16
                 else s.stack }
      if s.PC.truthy then { s1 with PC := JSNum.num s.NNN } else s1
  | Handler.h3000 => if s.V s.X = s.NN then { s with PC := s.PC.add 2 } else s
  | Handler.h4000 => if s.V s.X ≠ s.NN then { s with PC := s.PC.add 2 } else s
  | Handler.h5000 => if s.V s.X = s.V s.Y then { s with PC := s.PC.add 2 } else s
  | Handler.h6000 => { s with V := setV s.V s.X s.NN }
  | Handler.h7000 => { s with V := setV s.V s.X (s.V s.X + s.NN) }
  | Handler.h9000 => if s.V s.X ≠ s.V s.Y then { s with PC := s.PC.add 2 } else s
  | Handler.hA000 => { s with I := s.NNN }
  | Handler.hB000 => { s with PC := JSNum.num (s.NNN + s.V 0) }
  | Handler.hC000 => { s with V := setV s.V s.X (env.random &&& s.NN) }
  | Handler.hD000 => draw s
  | Handler.h0001 => { s with V := setV s.V s.X (s.V s.X ||| s.V s.Y) }
  | Handler.h0002 => { s with V := setV s.V s.X (s.V s.X &&& s.V s.Y) }
  | Handler.h0003 => { s with V := setV s.V s.X (s.V s.X ^^^ s.V s.Y) }
  | Handler.h0004 =>
      let V1 := setV s.V s.X (s.V s.X + s.V s.Y)
      let vf := if V1 s.X > 0xFF then 1 else 0
      { s with
        V := if V1 s.X > 0xFF then setV V1 s.X (V1 s.X - 0x100) else V1
        VF := vf }
  | Handler.h0005 =>
      let vf := if s.V s.X > s.V s.Y then 1 else 0
      let V1 := setV s.V s.X (toUint8 ((s.V s.X : Int) - (s.V s.Y : Int)))
      { s with
        V := if (V1 s.X : Int) < 0 then setV V1 s.X (V1 s.X + 256) else V1
        VF := vf }
  | Handler.h0006 =>
      { s with V := setV s.V s.X (s.V s.X >>> 1), VF := s.V s.X &&& 0x1 }
  | Handler.h0007 => { s with V := setV s.V s.X s.DT }
  | Handler.h000E =>
      let vf := s.V s.X &&& 0x80
      let V1 := setV s.V s.X (s.V s.X <<< 1)
      { s with
        V := if V1 s.X > 255 then setV V1 s.X (V1 s.X - 256) else V1
        VF := vf }
  | Handler.h009E => if s.V s.X ∈ s.keyStates then { s with PC := s.PC.add 2 } else s
  | Handler.h00A1 => if ¬ (s.V s.X ∈ s.keyStates) then { s with PC := s.PC.add 2 } else s
  | Handler.h0015 => { s with DT := s.V s.X }
  | Handler.h0018 => { s with ST := s.V s.X }
  | Handler.h001E => { s with I := s.I + s.V s.X }
  | Handler.h0029 => { s with I := s.V s.X * 5 }
  | Handler.h0055 =>
      let m := (List.range (s.X + 1)).foldl
        (fun m i => taSet ramLength 256 m (s.I + i) (s.V i)) s.RAM
      { s with RAM := m }
  | Handler.h0065 =>
      let v := (List.range (s.X + 1)).foldl
        (fun v i => setV v i (toInt (s.getRAM (s.I + i)))) s.V
      { s with V := v }
  -- `(V[X]/100) % 10` and `(V[X]/10) % 10` are fractional numbers; the store into the
  -- `Uint8Array` truncates them, which for a byte operand is the integer quotient
  | Handler.h0033 =>
      let m1 := taSet ramLength 256 s.RAM ((s.I + 0) &&& 0xFFF) (s.V s.X / 100 % 10)
      let m2 := taSet ramLength 256 m1 ((s.I + 1) &&& 0xFFF) (s.V s.X / 10 % 10)
      { s with RAM := taSet ramLength 256 m2 ((s.I + 2) &&& 0xFFF) (s.V s.X % 10) }
  | Handler.h0000p => { s with V := setV s.V s.X (s.V s.Y) }
  | Handler.h0007p =>
      let vf := if s.V s.Y > s.V s.X then 1 else 0
      let V1 := setV s.V s.X (toUint8 ((s.V s.Y : Int) - (s.V s.X : Int)))
      { s with
        V := if (V1 s.X : Int) < 0 then setV V1 s.X (V1 s.X + 0x100) else V1
        VF := vf }

/-- The call `this.ins[opc]()` for the entry `h` of the table `t` (the value of
`this.ins` at the call). The entry `0x8000` runs `Object.assign`, then, when the
captured `opcode` is a key of the table, calls `tmp_ins[this.N]`, which throws a
`TypeError` when that property is `undefined`. -/
def callEntry (env : Env) (t : InsTable) (h : Handler) (s : Chip8) : Chip8 × Option Exn :=
  match h with
  | Handler.h8000 =>
      let s1 := { s with ins := some t.assign }
      if t.assign.has t.opcode then
        match t.assign.get s.N with
        | some g => (runEntry env g s1, none)
        | none => (s1, some Exn.typeError)
      else (s1, none)
  | g => (runEntry env g s, none)

/-- The entry `this.ins[opc]` that `exec` selects for the fetched word `w`, with the
fields `N` and `NN` decoded from it. -/
def selected (t : InsTable) (w : Nat) : Option Handler :=
  lookup t (dispatchKey t w (w &&& 0xF) (w &&& 0xFF))

/-- The object `this.ins` after `this.ins = this.ins || { .. }`: an existing table is
kept; a new one captures the `opcode` binding of the current call. -/
def table (s : Chip8) : InsTable :=
  s.ins.getD { opcode := s.fetch, assigned := false }

/-- The state of `exec` just before the dispatch key is computed: table installed,
`PC` advanced by 2, instruction fields decoded from the fetched word. -/
def decode (s : Chip8) : Chip8 :=
  let opcode := s.fetch
  { s with
    ins := some s.table
    PC := s.PC.add 2
    N := opcode &&& 0xF
    NN := opcode &&& 0xFF
    NNN := opcode &&& 0xFFF
    NNNN := opcode &&& 0xFFFF
    X := (opcode &&& 0x0F00) >>> 8
    Y := (opcode &&& 0x00F0) >>> 4 }

/-- Method `exec`: the state it leaves and the exception it throws, if any. -/
def exec (env : Env) (s : Chip8) : Chip8 × Option Exn :=
  if s.playing ≠ true then (s, none)
  else
    let opcode := s.fetch
    let t := s.table
    let s1 := s.decode
    let opc := dispatchKey t opcode s1.N s1.NN
    match lookup t opc with
    | none => ({ s1 with playing := false }, some (Exn.undefinedOpcode (opcode &&& 0xF000)))
    | some h =>
        let s2 := { s1 with VF := s1.V 0xF }
        match callEntry env t h s2 with
        | (s3, some e) => (s3, some e)
        | (s3, none) =>
            let s4 := { s3 with V := setV s3.V 0xF s3.VF }
            ({ s4 with VF := s4.V 0xF }, none)

/-! ## Timers, frame step, reset and program load -/

/-- The getter `beep`: one tone-start signal. -/
def beep (s : Chip8) : Chip8 := { s with beeps := s.beeps + 1 }

/-- Method `xpuCycle` (the canvas redraw reads `VRAM` and changes no field). In
`this.ST>0 && this.ST-- && this.ST === 1` the decrement runs only when `ST > 0`
and yields the old value; the comparison reads the decremented field. -/
def xpuCycle (s : Chip8) : Chip8 :=
  if s.playing ≠ true then s
  else
    let dt := if s.DT > 0 then s.DT - 1 else s.DT
    let st := if s.ST > 0 then s.ST - 1 else s.ST
    let signal := decide (s.ST > 0) && (s.ST != 0) && (st == 1)
    let s1 := { s with DT := dt, ST := st }
    if signal then beep s1 else s1

/-- Method `cycle`: `exec` then `xpuCycle`; an exception thrown by `exec` skips `xpuCycle`. -/
def cycle (env : Env) (s : Chip8) : Chip8 × Option Exn :=
  match exec env s with
  | (s1, some e) => (s1, some e)
  | (s1, none) => (xpuCycle s1, none)

/-- The table `this.fontSet`. -/
def fontSet : List Nat :=
  [0xF999F, 0x26227, 0xF1F8F, 0xF1F1F,
   0x99F11, 0xF8F1F, 0xF8F9F, 0xF1244,
   0xF9F9F, 0xF9F1F, 0xF9F99, 0xE9E9E,
   0xF888F, 0xE999E, 0xF8F8F, 0xF8F88]

/-- The font loop of `initVM`: glyph `i`, shift `j = 16, 12, 8, 4, 0`, running index
`C = 5 * i + k`; the stored value `parseInt(d.toString(16) + "0", 16)` of a hex
digit `d` is `16 * d`. -/
def installFonts (ram : Nat → Nat) : Nat → Nat :=
  (List.range fontSet.length).foldl
    (fun m i => (List.range 5).foldl
      (fun m k => taSet ramLength 256 m (5 * i + k)
        (((fontSet.getD i 0 >>> (16 - 4 * k)) &&& 0xF) * 16)) m) ram

/-- Method `initVM`: every machine field it assigns; `VRAM`, `ins` and `beeps` are
not touched by it. -/
def initVM (s : Chip8) : Chip8 :=
  { s with
    playing := false
    RAM := installFonts (fun _ => 0)
    V := fun _ => 0
    VF := 0
    I := 0
    stack := fun _ => 0
    DT := 0
    ST := 0
    PC := JSNum.num 0x200
    SP := 0
    X := 0
    Y := 0
    N := 0
    NN := 0
    NNN := 0
    NNNN := 0
    keyStates := [] }

/-- Method `initGPU`: the machine field it assigns. -/
def initGPU (s : Chip8) : Chip8 := { s with VRAM := List.replicate (64 * 32) false }

/-- The constructor `new Chip8(opt)`: `initVM` then `initGPU` on an object without
fields (the self-rescheduling call of `cycle` is the external driver). -/
def construct : Chip8 :=
  initGPU (initVM
    { playing := false, RAM := fun _ => 0, V := fun _ => 0, VF := 0, I := 0,
      stack := fun _ => 0, DT := 0, ST := 0, PC := JSNum.undefined, SP := 0,
      X := 0, Y := 0, N := 0, NN := 0, NNN := 0, NNNN := 0,
      keyStates := [], VRAM := [], ins := none, beeps := 0 })

/-- The `onload` handler installed by `loadROM`, for a response of bytes `prog`. -/
def loadROM (s : Chip8) (prog : List Nat) : Chip8 :=
  let s1 := initVM { s with playing := false }
  let cleared := (List.range (ramLength - 0x200)).foldl
    (fun m k => taSet ramLength 256 m (0x200 + k) 0) s1.RAM
  let loaded := (List.range prog.length).foldl
    (fun m i => taSet ramLength 256 m (i + 0x200) (prog.getD i 0)) cleared
  let s4 := clearScreen { s1 with RAM := loaded }
  { s4 with PC := JSNum.num 0x200, playing := true }

/-! ## Proof-side definitions -/

/-- The buffer cells flipped by a sprite of `n` rows read from `ram` at `i` and
drawn at `(vx, vy)`, in the order in which the two loops of the `DXYN` entry visit
them: row `r`, column `c`, for every set bit `7 - c` of the byte read at `i + r`. -/
def cellsOf (ram : Nat → Nat) (i vx vy n : Nat) : List Nat :=
  (List.range n).flatMap (fun r =>
    ((List.range 8).filter (fun c => (toInt (taGet ramLength ram (i + r))).testBit (7 - c))).map
      (fun c => vx + c + 64 * (vy + r)))

/-- The cells flipped by the `DXYN` entry in the state `s`. -/
def spriteCells (s : Chip8) : List Nat :=
  cellsOf s.RAM s.I (s.V s.X) (s.V s.Y) s.N

/-- One flip of the cell `i` on the accumulator `(VRAM, VF)` of the `DXYN` entry. -/
def flipCell (acc : List Bool × Nat) (i : Nat) : List Bool × Nat :=
  (vramSet acc.1 i (!(vramGet acc.1 i)), if vramGet acc.1 i then 1 else acc.2)

/-- A playing machine whose memory and registers are given, everything else as
left by the constructor. -/
def machine (ram v : Nat → Nat) : Chip8 :=
  { construct with playing := true, RAM := ram, V := v }

/-! ## Example machines -/

/-- An environment with no key held on the ambient instance. -/
def idleEnv : Env := { c8keyStates := [], random := 0 }

/-- `8124` at `0x200` with `V1 = 0xFF`, `V2 = 0x02`. -/
def carryState : Chip8 :=
  machine (fun a => if a = 0x200 then 0x81 else if a = 0x201 then 0x24 else 0)
    (fun i => if i = 1 then 0xFF else if i = 2 then 0x02 else 0)

/-- `2204` at `0x200`, `00EE` at `0x204`, stack pointer 12, every stack slot 0. -/
def deepCallState : Chip8 :=
  { machine (fun a => if a = 0x200 then 0x22 else if a = 0x201 then 0x04
      else if a = 0x205 then 0xEE else 0) (fun _ => 0) with SP := 12 }

/-- The word `FFFF` at every address. -/
def unknownWordState : Chip8 := machine (fun _ => 0xFF) (fun _ => 0)

/-- `D012` at `0x200` and at `0x202`, `I = 0x300`, sprite bytes `A5 FF` there,
`V0 = 10`, `V1 = 5`, empty screen. -/
def drawState : Chip8 :=
  { machine (fun a => if a = 0x200 then 0xD0 else if a = 0x201 then 0x12
      else if a = 0x202 then 0xD0 else if a = 0x203 then 0x12
      else if a = 0x300 then 0xA5 else if a = 0x301 then 0xFF else 0)
      (fun i => if i = 0 then 10 else if i = 1 then 5 else 0) with I := 0x300 }

/-- `F30A` at `0x200`, `V3 = 7`, key 5 held. -/
def keyWaitState : Chip8 :=
  { machine (fun a => if a = 0x200 then 0xF3 else if a = 0x201 then 0x0A else 0)
      (fun i => if i = 3 then 7 else 0) with keyStates := [5] }

/-- `7FFF` at `0x200` with `VF = 0x01`. -/
def flagAddState : Chip8 :=
  machine (fun a => if a = 0x200 then 0x7F else if a = 0x201 then 0xFF else 0)
    (fun i => if i = 0xF then 0x01 else 0)

/-- `71FF` at `0x200` and at `0x202` with `V1 = 0x01`. -/
def addTwiceState : Chip8 :=
  machine (fun a => if a = 0x200 then 0x71 else if a = 0x201 then 0xFF
    else if a = 0x202 then 0x71 else if a = 0x203 then 0xFF else 0)
    (fun i => if i = 1 then 0x01 else 0)

/-- `00E0` at `0x200` with the first pixel of the screen set. -/
def litScreenState : Chip8 :=
  { machine (fun a => if a = 0x201 then 0xE0 else 0) (fun _ => 0) with
    VRAM := true :: List.replicate (64 * 32 - 1) false }

/-- A freshly loaded machine with the program `6205 8120`. -/
def copyProgram : Chip8 :=
  machine (fun a => if a = 0x200 then 0x62 else if a = 0x201 then 0x05
    else if a = 0x202 then 0x81 else if a = 0x203 then 0x20 else 0) (fun _ => 0)

/-- A freshly loaded machine with the program `6102 6205 8127`. -/
def reverseSubProgram : Chip8 :=
  machine (fun a => if a = 0x200 then 0x61 else if a = 0x201 then 0x02
    else if a = 0x202 then 0x62 else if a = 0x203 then 0x05
    else if a = 0x204 then 0x81 else if a = 0x205 then 0x27 else 0) (fun _ => 0)

/-- `810E` at `0x200` with `V1 = 0x81`. -/
def shiftState : Chip8 :=
  machine (fun a => if a = 0x200 then 0x81 else if a = 0x201 then 0x0E else 0)
    (fun i => if i = 1 then 0x81 else 0)

/-- `8125` at `0x200` with `V1 = 0x02`, `V2 = 0x05`. -/
def borrowState : Chip8 :=
  machine (fun a => if a = 0x200 then 0x81 else if a = 0x201 then 0x25 else 0)
    (fun i => if i = 1 then 0x02 else if i = 2 then 0x05 else 0)

/-- `F133` at `0x200` with `V1 = 254` and `I = 0x300`. -/
def bcdState : Chip8 :=
  { machine (fun a => if a = 0x200 then 0xF1 else if a = 0x201 then 0x33 else 0)
      (fun i => if i = 1 then 254 else 0) with I := 0x300 }

/-- `F165` at `0x200`, `I = 0x300`, memory bytes `03 04` there, `V2 = 9`. -/
def loadRegsState : Chip8 :=
  { machine (fun a => if a = 0x200 then 0xF1 else if a = 0x201 then 0x65
      else if a = 0x300 then 0x03 else if a = 0x301 then 0x04 else 0)
      (fun i => if i = 2 then 9 else 0) with I := 0x300 }

/-- `FF65` at `0x200`, `I = 0x300`, `memory[0x30F] = 7`, `VF = 1`. -/
def loadAllRegsState : Chip8 :=
  { machine (fun a => if a = 0x200 then 0xFF else if a = 0x201 then 0x65
      else if a = 0x30F then 0x07 else 0)
      (fun i => if i = 0xF then 1 else 0) with I := 0x300 }

/-- A freshly loaded machine with the program `6005 8000 F107`. -/
def timerReadProgram : Chip8 :=
  machine (fun a => if a = 0x200 then 0x60 else if a = 0x201 then 0x05
    else if a = 0x202 then 0x80 else if a = 0x203 then 0x00
    else if a = 0x204 then 0xF1 else if a = 0x205 then 0x07 else 0) (fun _ => 0)

/-- A playing machine with `DT = 3` and `ST = 2`. -/
def timerState : Chip8 :=
  { machine (fun _ => 0) (fun _ => 0) with DT := 3, ST := 2 }

/-- `2204` at `0x200`, `00EE` at `0x204`, stack pointer 3, every stack slot 0. -/
def shallowCallState : Chip8 := { deepCallState with SP := 3 }

/-- `2204` at `0x200`, `00EE` at `0x204`, stack pointer 15, every stack slot 0. -/
def fullStackCallState : Chip8 := { deepCallState with SP := 15 }

/-- A freshly loaded machine whose first word is `00EE`. -/
def returnFirstState : Chip8 :=
  machine (fun a => if a = 0x201 then 0xEE else 0) (fun _ => 0)

/-! ## Decoding lemmas -/

theorem and_F000 (w : Nat) : w &&& 0xF000 = w / 4096 % 16 * 4096 := by
  have h : (0xF000 : Nat) = 0xF <<< 12 := by decide
  have h2 : w &&& 0xF <<< 12 = ((w >>> 12) &&& 0xF) <<< 12 := by
    apply Nat.eq_of_testBit_eq
    intro i
    simp only [Nat.testBit_and, Nat.testBit_shiftLeft, Nat.testBit_shiftRight]
    by_cases hi : 12 ≤ i
    · simp [hi]
    · simp [hi]
  rw [h, h2, Nat.shiftLeft_eq, Nat.shiftRight_eq_div_pow]
  have := Nat.and_pow_two_sub_one_eq_mod (w / 2 ^ 12) 4
  simp at this ⊢
  rw [this]

theorem and_0F00 (w : Nat) : (w &&& 0x0F00) >>> 8 = w / 256 % 16 := by
  have h2 : (w &&& 0x0F00) >>> 8 = (w >>> 8) &&& 0xF := by
    apply Nat.eq_of_testBit_eq
    intro i
    have h : (0x0F00 : Nat) = 0xF <<< 8 := by decide
    rw [h]
    simp only [Nat.testBit_and, Nat.testBit_shiftLeft, Nat.testBit_shiftRight]
    simp
  rw [h2, Nat.shiftRight_eq_div_pow]
  exact Nat.and_pow_two_sub_one_eq_mod (w / 2 ^ 8) 4

theorem and_00F0 (w : Nat) : (w &&& 0x00F0) >>> 4 = w / 16 % 16 := by
  have h2 : (w &&& 0x00F0) >>> 4 = (w >>> 4) &&& 0xF := by
    apply Nat.eq_of_testBit_eq
    intro i
    have h : (0x00F0 : Nat) = 0xF <<< 4 := by decide
    rw [h]
    simp only [Nat.testBit_and, Nat.testBit_shiftLeft, Nat.testBit_shiftRight]
    simp
  rw [h2, Nat.shiftRight_eq_div_pow]
  exact Nat.and_pow_two_sub_one_eq_mod (w / 2 ^ 4) 4

theorem and_000F (w : Nat) : w &&& 0xF = w % 16 :=
  Nat.and_pow_two_sub_one_eq_mod w 4

theorem and_00FF (w : Nat) : w &&& 0xFF = w % 256 :=
  Nat.and_pow_two_sub_one_eq_mod w 8

theorem and_0FFF (w : Nat) : w &&& 0xFFF = w % 4096 :=
  Nat.and_pow_two_sub_one_eq_mod w 12

theorem and_FFFF (w : Nat) : w &&& 0xFFFF = w % 65536 :=
  Nat.and_pow_two_sub_one_eq_mod w 16

/-! ## Dispatch lemmas -/

theorem exec_of_selected (env : Env) (s : Chip8) (h : Handler)
    (hp : s.playing = true) (hs : selected s.table s.fetch = some h) :
    exec env s =
      match callEntry env s.table h { s.decode with VF := s.decode.V 0xF } with
      | (s3, some e) => (s3, some e)
      | (s3, none) =>
          ({ s3 with V := setV s3.V 0xF s3.VF, VF := setV s3.V 0xF s3.VF 0xF }, none) := by
  have hs2 : lookup s.table (dispatchKey s.table s.fetch s.decode.N s.decode.NN) = some h := hs
  simp only [exec, hp, hs2]
  simp

theorem selected_plain (t : InsTable) (w c : Nat) (hc : w &&& 0xF000 = c)
    (h8 : c ≠ 0x8000) (hE : c ≠ 0xE000) (hF : c ≠ 0xF000) (h0 : c ≠ 0)
    (hk : t.has c = true) : selected t w = t.get c := by
  simp [selected, dispatchKey, hc, h8, hE, hF, h0, hk, andNum, orVal, lookup]

theorem selected_sub (t : InsTable) (w c k : Nat) (hc : w &&& 0xF000 = c)
    (hcls : c = 0x8000 ∧ w &&& 0xF = k ∨ (c = 0xE000 ∨ c = 0xF000) ∧ w &&& 0xFF = k)
    (hk0 : k ≠ 0) (hk : t.has k = true) : selected t w = t.get k := by
  rcases hcls with ⟨rfl, hn⟩ | ⟨rfl | rfl, hn⟩ <;>
    simp [selected, dispatchKey, hc, hn, hk0, hk, andNum, orVal, lookup]

theorem selected_zero (t : InsTable) (w : Nat) (hc : w &&& 0xF000 = 0)
    (hk0 : w ≠ 0) (hk : t.has w = true) : selected t w = t.get w := by
  simp [selected, dispatchKey, hc, hk0, hk, andNum, orVal, lookup]

theorem get_ne_h8000_of_lt (t : InsTable) (k : Nat) (hk : k < 16) :
    t.get k ≠ some Handler.h8000 := by
  obtain ⟨o, a⟩ := t
  interval_cases k <;> cases a <;> simp [InsTable.get]

theorem decode_N_lt (s : Chip8) : s.decode.N < 16 := by
  show s.fetch &&& 0xF < 16
  rw [and_000F]; omega

theorem xpuCycle_frame (s : Chip8) : (xpuCycle s).PC = s.PC ∧ (xpuCycle s).V = s.V := by
  simp only [xpuCycle, beep]
  split_ifs <;> exact ⟨rfl, rfl⟩

/-! ## Display buffer lemmas -/

theorem vramGet_vramSet (v : List Bool) (i j : Nat) (b : Bool) :
    vramGet (vramSet v i b) j = if j = i then b else vramGet v j := by
  unfold vramGet vramSet
  by_cases h : i < v.length
  · simp only [h, if_true, List.getD_eq_getElem?_getD, List.getElem?_set]
    by_cases hj : j = i
    · subst hj; simp [h]
    · have : ¬ i = j := fun e => hj e.symm
      simp [hj, this]
  · simp only [h, if_false, List.getD_eq_getElem?_getD]
    by_cases hj : j = i
    · subst hj
      have : (v ++ List.replicate (j - v.length) false).length = j := by
        simp; omega
      rw [List.getElem?_append_right (by omega)]
      simp [this]
    · simp only [hj, if_false]
      by_cases hl : j < v.length
      · rw [List.append_assoc, List.getElem?_append_left hl]
      · rw [List.append_assoc, List.getElem?_append_right (by omega)]
        rw [List.getElem?_eq_none (l := v) (by omega)]
        by_cases hl2 : j - v.length < i - v.length
        · rw [List.getElem?_append_left (by simpa using hl2)]
          simp [hl2]
        · rw [List.getElem?_append_right (by simpa using hl2)]
          rw [List.getElem?_eq_none (by simp; omega)]

theorem vramSet_length (v : List Bool) (i : Nat) (b : Bool) :
    (vramSet v i b).length = max v.length (i + 1) := by
  unfold vramSet
  by_cases h : i < v.length
  · simp [h]; omega
  · simp [h]; omega

theorem flipPixel_eq (v : List Bool) (x y : Nat) :
    flipPixel v x y =
      (vramSet v (x + 64 * y) (!(vramGet v (x + 64 * y))), vramGet v (x + 64 * y)) := by
  simp [flipPixel, vramGet_vramSet]

theorem bit80 (b c : Nat) (hc : c < 8) :
    ((b <<< c) &&& 0x80 ≠ 0) ↔ b.testBit (7 - c) = true := by
  have := Nat.and_two_pow (b <<< c) 7
  simp only [Nat.reducePow] at this
  rw [this, Nat.testBit_shiftLeft]
  have h : decide (7 ≥ c) = true := by simp; omega
  rw [h]
  cases b.testBit (7 - c) <;> simp

theorem drawBit_range' (vx vy y b : Nat) :
    ∀ (m k : Nat) (v : List Bool) (f : Nat), k + m ≤ 8 →
      (List.range' k m).foldl (drawBit vx vy y) (b <<< k, v, f) =
        (b <<< (k + m),
          (((List.range' k m).filter (fun c => b.testBit (7 - c))).map
            (fun c => vx + c + 64 * (vy + y))).foldl flipCell (v, f)) := by
  intro m
  induction m with
  | zero => intro k v f _; simp
  | succ m ih =>
    intro k v f hk
    have hshift : (b <<< k) <<< 1 = b <<< (k + 1) := by rw [Nat.shiftLeft_add]
    have hb := bit80 b k (by omega)
    rw [List.range'_succ, List.foldl_cons]
    by_cases ht : b.testBit (7 - k) = true
    · have h1 : (b <<< k) &&& 0x80 ≠ 0 := hb.mpr ht
      have : drawBit vx vy y (b <<< k, v, f) k = (b <<< (k + 1), flipCell (v, f) (vx + k + 64 * (vy + y))) := by
        simp only [drawBit]
        rw [if_pos h1, flipPixel_eq, hshift]
        rfl
      rw [this, ih (k + 1) _ _ (by omega)]
      simp [List.filter_cons, ht, Nat.add_assoc, Nat.add_comm 1 m]
    · have h1 : ¬ ((b <<< k) &&& 0x80 ≠ 0) := fun h => ht (hb.mp h)
      have : drawBit vx vy y (b <<< k, v, f) k = (b <<< (k + 1), v, f) := by
        simp only [drawBit]
        rw [if_neg h1, hshift]
      rw [this, ih (k + 1) _ _ (by omega)]
      simp [List.filter_cons, ht, Nat.add_assoc, Nat.add_comm 1 m]

theorem foldl_flatMap_flipCell (g : Nat → List Nat) :
    ∀ (l : List Nat) (a : List Bool × Nat),
      (l.flatMap g).foldl flipCell a = l.foldl (fun acc r => (g r).foldl flipCell acc) a := by
  intro l
  induction l with
  | nil => intro a; rfl
  | cons x l ih => intro a; simp [List.flatMap_cons, List.foldl_append, ih]

theorem draw_eq (s : Chip8) :
    draw s = { s with
      VRAM := ((spriteCells s).foldl flipCell (s.VRAM, 0)).1
      VF := ((spriteCells s).foldl flipCell (s.VRAM, 0)).2 } := by
  have hrow : ∀ (acc : List Bool × Nat) (y : Nat), drawRow s acc y =
      (((List.range 8).filter (fun c => (toInt (taGet ramLength s.RAM (s.I + y))).testBit (7 - c))).map
        (fun c => s.V s.X + c + 64 * (s.V s.Y + y))).foldl flipCell acc := by
    intro acc y
    have := drawBit_range' (s.V s.X) (s.V s.Y) y (toInt (s.getRAM (s.I + y))) 8 0 acc.1 acc.2 (by omega)
    simp only [Nat.shiftLeft_zero, ← List.range_eq_range', getRAM] at this
    simp only [drawRow, getRAM, this]
  have hd : (List.range s.N).foldl (drawRow s) (s.VRAM, 0) = (spriteCells s).foldl flipCell (s.VRAM, 0) := by
    rw [spriteCells, cellsOf, foldl_flatMap_flipCell]
    congr 1
    funext acc y
    exact hrow acc y
  simp only [draw, hd]

theorem flips_get (L : List Nat) :
    ∀ (v : List Bool) (f j : Nat),
      vramGet (L.foldl flipCell (v, f)).1 j =
        xor (vramGet v j) (decide (L.count j % 2 = 1)) := by
  induction L with
  | nil => intro v f j; simp
  | cons i L ih =>
    intro v f j
    rw [List.foldl_cons]
    show vramGet (L.foldl flipCell (vramSet v i (!(vramGet v i)), _)).1 j = _
    rw [ih, vramGet_vramSet, List.count_cons]
    by_cases hj : j = i
    · subst hj
      by_cases hc : L.count j % 2 = 1
      · have : ¬ (L.count j + 1) % 2 = 1 := by omega
        cases hv : vramGet v j <;> simp [hc, this]
      · have : (L.count j + 1) % 2 = 1 := by omega
        cases hv : vramGet v j <;> simp [hc, this]
    · have : ¬ i = j := fun e => hj e.symm
      simp [hj, this]

theorem flips_vf_sticky (L : List Nat) :
    ∀ (v : List Bool), (L.foldl flipCell (v, 1)).2 = 1 := by
  induction L with
  | nil => intro v; rfl
  | cons i L ih =>
    intro v
    rw [List.foldl_cons]
    have : flipCell (v, 1) i = (vramSet v i (!(vramGet v i)), 1) := by
      simp [flipCell]
    rw [this, ih]

theorem flips_vf_hit (L : List Nat) :
    ∀ (v : List Bool) (f j : Nat), j ∈ L → vramGet v j = true →
      (L.foldl flipCell (v, f)).2 = 1 := by
  induction L with
  | nil => intro v f j h; simp at h
  | cons i L ih =>
    intro v f j hj hv
    rw [List.foldl_cons]
    by_cases hi : vramGet v i = true
    · have : flipCell (v, f) i = (vramSet v i (!(vramGet v i)), 1) := by
        simp [flipCell, hi]
      rw [this, flips_vf_sticky]
    · have hne : j ≠ i := fun e => hi (e ▸ hv)
      have hmem : j ∈ L := by
        rcases List.mem_cons.mp hj with h | h
        · exact absurd h hne
        · exact h
      show (L.foldl flipCell (vramSet v i (!(vramGet v i)), _)).2 = 1
      exact ih _ _ j hmem (by rw [vramGet_vramSet]; simp [hne, hv])

theorem flips_vf_clear (L : List Nat) :
    ∀ (v : List Bool) (f : Nat), L.Nodup → (∀ i ∈ L, vramGet v i = false) →
      (L.foldl flipCell (v, f)).2 = f := by
  induction L with
  | nil => intro v f _ _; rfl
  | cons i L ih =>
    intro v f hnd hall
    rw [List.foldl_cons]
    have hi : vramGet v i = false := hall i (List.mem_cons_self _ _)
    have : flipCell (v, f) i = (vramSet v i (!(vramGet v i)), f) := by
      simp [flipCell, hi]
    rw [this]
    have hnd2 := List.nodup_cons.mp hnd
    apply ih _ _ hnd2.2
    intro k hk
    have hne : k ≠ i := fun e => hnd2.1 (e ▸ hk)
    rw [vramGet_vramSet]
    simp [hne, hall k (List.mem_cons_of_mem _ hk)]

theorem mem_cellsOf (ram : Nat → Nat) (i vx vy n j : Nat) :
    j ∈ cellsOf ram i vx vy n ↔
      ∃ r, r < n ∧ ∃ c, c < 8 ∧ (toInt (taGet ramLength ram (i + r))).testBit (7 - c) = true ∧
        j = vx + c + 64 * (vy + r) := by
  simp only [cellsOf, List.mem_flatMap, List.mem_map, List.mem_filter, List.mem_range]
  constructor
  · rintro ⟨r, hr, c, ⟨hc, hb⟩, rfl⟩
    exact ⟨r, hr, c, hc, hb, rfl⟩
  · rintro ⟨r, hr, c, hc, hb, rfl⟩
    exact ⟨r, hr, c, ⟨hc, hb⟩, rfl⟩

theorem nodup_cellsOf (ram : Nat → Nat) (i vx vy n : Nat) :
    (cellsOf ram i vx vy n).Nodup := by
  unfold cellsOf
  rw [List.nodup_flatMap]
  constructor
  · intro r _
    apply List.Nodup.map_on
    · intro a ha b hb hab
      omega
    · exact (List.nodup_range 8).filter _
  · apply List.Pairwise.imp _ (List.nodup_range n)
    intro a b hab
    simp only [Function.onFun]
    rw [List.disjoint_left]
    intro k hka hkb
    simp only [List.mem_map, List.mem_filter, List.mem_range] at hka hkb
    obtain ⟨c, ⟨hc, _⟩, rfl⟩ := hka
    obtain ⟨c2, ⟨hc2, _⟩, h⟩ := hkb
    omega

/-! ## Memory and screen loops -/

theorem taSet_apply (len w : Nat) (m : Nat → Nat) (i v a : Nat) :
    taSet len w m i v a = if i < len ∧ a = i then v % w else m a := by
  unfold taSet
  by_cases h : i < len
  · by_cases ha : a = i
    · subst ha; simp [h]
    · simp [h, ha, Function.update_noteq ha]
  · simp [h]

theorem foldl_taSet_range (len w base : Nat) (g : Nat → Nat) :
    ∀ (k : Nat) (m : Nat → Nat) (a : Nat),
      ((List.range k).foldl (fun m i => taSet len w m (base + i) (g i)) m) a =
        if base ≤ a ∧ a < base + k ∧ a < len then g (a - base) % w else m a := by
  intro k
  induction k with
  | zero =>
    intro m a
    have : ¬ (base ≤ a ∧ a < base + 0 ∧ a < len) := by omega
    rw [List.range_zero, List.foldl_nil, if_neg this]
  | succ k ih =>
    intro m a
    rw [List.range_succ, List.foldl_append, List.foldl_cons, List.foldl_nil, taSet_apply, ih]
    by_cases ha : base + k < len ∧ a = base + k
    · obtain ⟨hk, rfl⟩ := ha
      have : base ≤ base + k ∧ base + k < base + (k + 1) ∧ base + k < len :=
        ⟨by omega, by omega, hk⟩
      rw [if_pos ⟨hk, rfl⟩, if_pos this, Nat.add_sub_cancel_left]
    · rw [if_neg ha]
      by_cases hc : base ≤ a ∧ a < base + k ∧ a < len
      · have : base ≤ a ∧ a < base + (k + 1) ∧ a < len := ⟨hc.1, by omega, hc.2.2⟩
        rw [if_pos hc, if_pos this]
      · have : ¬ (base ≤ a ∧ a < base + (k + 1) ∧ a < len) := by omega
        rw [if_neg hc, if_neg this]

theorem foldl_vramSet_false (k : Nat) :
    ∀ (v : List Bool) (j : Nat),
      vramGet ((List.range k).foldl (fun v i => vramSet v i false) v) j =
        if j < k then false else vramGet v j := by
  induction k with
  | zero => intro v j; simp
  | succ k ih =>
    intro v j
    rw [List.range_succ, List.foldl_append, List.foldl_cons, List.foldl_nil, vramGet_vramSet, ih]
    by_cases hj : j = k
    · subst hj; simp
    · by_cases h2 : j < k
      · have : j < k + 1 := by omega
        simp [hj, h2, this]
      · have : ¬ j < k + 1 := by omega
        simp [hj, h2, this]

theorem clearScreen_get (s : Chip8) (j : Nat) : vramGet (clearScreen s).VRAM j = false := by
  simp only [clearScreen, foldl_vramSet_false]
  by_cases h : j < s.VRAM.length
  · simp [h]
  · simp only [h, if_false, vramGet]
    rw [List.getD_eq_default]
    omega

theorem flips_length (L : List Nat) :
    ∀ (v : List Bool) (f : Nat), (∀ i ∈ L, i < v.length) →
      (L.foldl flipCell (v, f)).1.length = v.length := by
  induction L with
  | nil => intro v f _; rfl
  | cons i L ih =>
    intro v f h
    rw [List.foldl_cons]
    have hi := h i (List.mem_cons_self _ _)
    have hl : (flipCell (v, f) i).1.length = v.length := by
      simp only [flipCell, vramSet_length]; omega
    have := ih (flipCell (v, f) i).1 (flipCell (v, f) i).2
      (fun k hk => by rw [hl]; exact h k (List.mem_cons_of_mem _ hk))
    rw [← hl]
    exact this

/-! ## Single instructions -/

theorem exec_DXYN (env : Env) (s : Chip8) (x y n : Nat)
    (hp : s.playing = true) (hx : x < 16) (hy : y < 16) (hn : n < 16)
    (hw : s.fetch = 0xD000 + 0x100 * x + 0x10 * y + n) :
    (exec env s).1.VRAM = ((cellsOf s.RAM s.I (s.V x) (s.V y) n).foldl flipCell (s.VRAM, 0)).1 ∧
    (exec env s).1.V =
      setV s.V 0xF ((cellsOf s.RAM s.I (s.V x) (s.V y) n).foldl flipCell (s.VRAM, 0)).2 ∧
    (exec env s).1.RAM = s.RAM ∧ (exec env s).1.I = s.I ∧
    (exec env s).1.playing = true ∧ (exec env s).2 = none := by
  have h1 : s.fetch &&& 0xF000 = 0xD000 := by rw [and_F000, hw]; omega
  have h2 : s.fetch &&& 0xF = n := by rw [and_000F, hw]; omega
  have h3 : (s.fetch &&& 0x0F00) >>> 8 = x := by rw [and_0F00, hw]; omega
  have h4 : (s.fetch &&& 0x00F0) >>> 4 = y := by rw [and_00F0, hw]; omega
  rw [exec_of_selected env s Handler.hD000 hp
    (by rw [selected_plain _ _ _ h1 (by decide) (by decide) (by decide) (by decide) rfl]; rfl)]
  simp only [callEntry, runEntry, draw_eq, spriteCells, decode, h2, h3, h4]
  simp [hp]

/-! ## Claims C1 to C10 -/

/-- Claim C1 (what the code does): for every playing state and every instruction
`8XY4` with `X ≠ 0xF`, one `exec` leaves `V[X] = (Vx + Vy) mod 256`, and it leaves
`V[0xF] = 0` whatever the sum is: the register array already wraps the stored sum,
so the carry test `V[X] > 0xFF` never succeeds. -/
theorem exec_8XY4_flag_always_zero (env : Env) (s : Chip8) (x y : Nat)
    (hp : s.playing = true) (hx : x < 15) (hy : y < 16)
    (hw : s.fetch = 0x8004 + 0x100 * x + 0x10 * y) :
    (exec env s).1.V x = (s.V x + s.V y) % 256 ∧ (exec env s).1.V 0xF = 0 := by
  have h1 : s.fetch &&& 0xF000 = 0x8000 := by rw [and_F000, hw]; omega
  have h2 : s.fetch &&& 0xF = 4 := by rw [and_000F, hw]; omega
  have h3 : (s.fetch &&& 0x0F00) >>> 8 = x := by rw [and_0F00, hw]; omega
  have h4 : (s.fetch &&& 0x00F0) >>> 4 = y := by rw [and_00F0, hw]; omega
  have h5 : ¬ 255 < (s.V x + s.V y) % 256 := by omega
  have h6 : x ≠ 15 := by omega
  rw [exec_of_selected env s Handler.h0004 hp
    (by rw [selected_sub _ _ _ 4 h1 (Or.inl ⟨rfl, h2⟩) (by decide) rfl]; rfl)]
  simp [decode, h3, h4, h5, h6, callEntry, runEntry, setV]

/-- Witness for C1: `8124` with `V1 = 0xFF`, `V2 = 0x02` gives `V1 = 0x01` and `VF = 0`. -/
theorem exec_8XY4_flag_always_zero_witness :
    (exec idleEnv carryState).1.V 1 = 0x01 ∧ (exec idleEnv carryState).1.V 0xF = 0 :=
  exec_8XY4_flag_always_zero idleEnv carryState 1 2 (by rfl) (by decide) (by decide) (by decide)

/-- Claim C2 (what the code does): for every playing state whose stack pointer is
`k` with `12 ≤ k ≤ 15`, if the word at `PC` is `2NNN` and the word at `NNN` is
`00EE`, then after two `exec` calls `PC` is the old content of stack slot `k`,
not the pushed return address: the call stores into slot `k mod 12`, the return
reads slot `k`. -/
theorem call_return_high_sp (env : Env) (s : Chip8) (k p nnn : Nat)
    (hp : s.playing = true) (hk : 12 ≤ k) (hk2 : k ≤ 15) (hsp : s.SP = (k : Int))
    (hpc : s.PC = JSNum.num p) (hnnn : nnn < 0x1000) (hw : s.fetch = 0x2000 + nnn)
    (hret : fetch { s with PC := JSNum.num nnn } = 0x00EE) :
    (exec env (exec env s).1).1.PC = JSNum.num (s.stack k) ∧
    (exec env (exec env s).1).1.SP = k := by
  have h1 : s.fetch &&& 0xF000 = 0x2000 := by rw [and_F000, hw]; omega
  have h2 : s.fetch &&& 0xFFF = nnn := by rw [and_0FFF, hw]; omega
  have e1 := exec_of_selected env s Handler.h2000 hp
    (by rw [selected_plain _ _ _ h1 (by decide) (by decide) (by decide) (by decide) rfl]; rfl)
  have hslot : Int.tmod (k : Int) 12 = ((k - 12 : Nat) : Int) := by
    interval_cases k <;> rfl
  simp only [callEntry, runEntry, decode, hpc, hsp, h2, JSNum.add, JSNum.truthy, hslot] at e1
  simp at e1
  have hf : fetch (exec env s).1 = 0x00EE := by
    rw [← hret, e1]
    simp [fetch, getRAMAt, getRAM]
  have hp1 : (exec env s).1.playing = true := by rw [e1]; exact hp
  rw [exec_of_selected env (exec env s).1 Handler.h00EE hp1 (by rw [hf]; rfl)]
  simp only [callEntry, runEntry, decode]
  rw [e1]
  have a1 : k < 16 := by omega
  have a2 : k - 12 < 16 := by omega
  have a3 : k ≠ k - 12 := by omega
  simp [taGet, taSet, stackLength, a1, a2, a3, Function.update]

/-- Witness for C2: with stack pointer 12, `2204` at `0x200` and `00EE` at `0x204`,
the two cycles end at `PC = 0` (the content of slot 12), not at `0x202`. -/
theorem call_return_high_sp_witness :
    (exec idleEnv (exec idleEnv deepCallState).1).1.PC = JSNum.num 0 ∧
    (exec idleEnv (exec idleEnv deepCallState).1).1.SP = 12 :=
  call_return_high_sp idleEnv deepCallState 12 0x200 0x204 (by rfl) (by decide) (by decide)
    (by rfl) (by rfl) (by decide) (by decide) (by decide)

/-- Claim C3 (what the code does): for every playing state whose fetched word is
`0xFFFF`, `exec` throws nothing, leaves the run state playing and advances `PC` by 2:
the word is dispatched to the class entry `0xF000`, which is a function. -/
theorem exec_word_FFFF_keeps_running (env : Env) (s : Chip8)
    (hp : s.playing = true) (hw : s.fetch = 0xFFFF) :
    (exec env s).2 = none ∧ (exec env s).1.playing = true ∧
    (exec env s).1.PC = s.PC.add 2 := by
  have hs : selected s.table s.fetch = some Handler.hF000 := by
    rw [hw]; rfl
  rw [exec_of_selected env s _ hp hs]
  simp [decode, hp, callEntry, runEntry]

/-- Witness for C3: a machine whose memory holds `FF` everywhere keeps playing. -/
theorem exec_word_FFFF_keeps_running_witness :
    (exec idleEnv unknownWordState).2 = none ∧
    (exec idleEnv unknownWordState).1.playing = true ∧
    (exec idleEnv unknownWordState).1.PC = JSNum.num 0x202 :=
  exec_word_FFFF_keeps_running idleEnv unknownWordState (by rfl) (by decide)

/-- Claim C4: for every playing state and every `DXYN` with `X ≠ 0xF` and
`Y ≠ 0xF`, executing the instruction twice in succession leaves every cell of the
display buffer as it was before the first draw, and the second draw leaves
`V[0xF] = 1` whenever the first draw turned at least one pixel on. -/
theorem exec_DXYN_twice (env : Env) (s : Chip8) (x y n : Nat)
    (hp : s.playing = true) (hx : x < 15) (hy : y < 15) (hn : n < 16)
    (hw : s.fetch = 0xD000 + 0x100 * x + 0x10 * y + n)
    (hw2 : fetch (exec env s).1 = 0xD000 + 0x100 * x + 0x10 * y + n) :
    (∀ j, vramGet (exec env (exec env s).1).1.VRAM j = vramGet s.VRAM j) ∧
    ((∃ j, vramGet s.VRAM j = false ∧ vramGet (exec env s).1.VRAM j = true) →
      (exec env (exec env s).1).1.V 0xF = 1) := by
  obtain ⟨hV, hF, hR, hI, hP, -⟩ := exec_DXYN env s x y n hp (by omega) (by omega) hn hw
  obtain ⟨hV2, hF2, -, -, -, -⟩ :=
    exec_DXYN env (exec env s).1 x y n hP (by omega) (by omega) hn hw2
  have hx15 : x ≠ 15 := by omega
  have hy15 : y ≠ 15 := by omega
  have hx1 : (exec env s).1.V x = s.V x := by
    rw [hF]; simp [setV, Function.update, hx15]
  have hy1 : (exec env s).1.V y = s.V y := by
    rw [hF]; simp [setV, Function.update, hy15]
  rw [hR, hI, hx1, hy1] at hV2 hF2
  constructor
  · intro j
    rw [hV2, flips_get, hV, flips_get]
    cases vramGet s.VRAM j <;>
      cases decide ((cellsOf s.RAM s.I (s.V x) (s.V y) n).count j % 2 = 1) <;> rfl
  · rintro ⟨j, h0, h1⟩
    have hm : j ∈ cellsOf s.RAM s.I (s.V x) (s.V y) n := by
      by_contra hnot
      rw [hV, flips_get, List.count_eq_zero_of_not_mem hnot, h0] at h1
      simp at h1
    rw [hF2, flips_vf_hit _ _ _ j hm h1]
    simp [setV]

theorem vramGet_replicate (n j : Nat) : vramGet (List.replicate n false) j = false := by
  unfold vramGet
  rw [List.getD_eq_getElem?_getD, List.getElem?_replicate]
  split <;> rfl

theorem drawState_cell_before : vramGet drawState.VRAM (10 + 64 * 5) = false :=
  vramGet_replicate (64 * 32) (10 + 64 * 5)

theorem drawState_cell_after :
    vramGet (exec idleEnv drawState).1.VRAM (10 + 64 * 5) = true := by
  rw [(exec_DXYN idleEnv drawState 0 1 2 (by rfl) (by decide) (by decide) (by decide)
    (by decide)).1, flips_get, drawState_cell_before]
  decide

/-- Witness for C4: `D012` twice at `(10, 5)` with sprite bytes `A5 FF` on an empty
screen; pixel `(10, 5)` is lit by the first draw, so the second draw sets `VF`. -/
theorem exec_DXYN_twice_witness :
    (∀ j, vramGet (exec idleEnv (exec idleEnv drawState).1).1.VRAM j =
      vramGet drawState.VRAM j) ∧
    (exec idleEnv (exec idleEnv drawState).1).1.V 0xF = 1 :=
  have h := exec_DXYN_twice idleEnv drawState 0 1 2 (by rfl) (by decide) (by decide)
    (by decide) (by decide) (by decide)
  ⟨h.1, h.2 ⟨10 + 64 * 5, drawState_cell_before, drawState_cell_after⟩⟩

theorem exec_FX0A (env : Env) (s : Chip8) (x p : Nat)
    (hp : s.playing = true) (hx : x < 15) (hpc : s.PC = JSNum.num p)
    (hw : s.fetch = 0xF00A + 0x100 * x) :
    (exec env s).2 = none ∧ (exec env s).1.PC = JSNum.num (p + 2) ∧
    (exec env s).1.V x = if env.c8keyStates = [] then s.V x else 1 := by
  have h1 : s.fetch &&& 0xF000 = 0xF000 := by rw [and_F000, hw]; omega
  have h2 : s.fetch &&& 0xFF = 0x0A := by rw [and_00FF, hw]; omega
  have h3 : (s.fetch &&& 0x0F00) >>> 8 = x := by rw [and_0F00, hw]; omega
  have h6 : x ≠ 15 := by omega
  rw [exec_of_selected env s Handler.h000A hp
    (by rw [selected_sub _ _ _ 0xA h1 (Or.inr ⟨Or.inr rfl, h2⟩) (by decide) rfl]; rfl)]
  cases hk : env.c8keyStates with
  | nil => simp [decode, h3, h6, hk, hpc, callEntry, runEntry, setV, JSNum.add]
  | cons a l => simp [decode, h3, h6, hk, hpc, callEntry, runEntry, setV, JSNum.add, trueAsUint8]

/-- Claim C5 (what the code does): for every playing state whose instruction at
`PC` is `FX0A` with `X ≠ 0xF`, the ambient instance `c8` being the machine itself,
one `cycle` always leaves `PC` advanced by 2, also when no key is pressed (the entry
returns without undoing the advance); `V[X]` is unchanged when no key is pressed
and becomes 1 (the stored `true`), not the key identifier, when a key is pressed. -/
theorem cycle_FX0A_never_waits (s : Chip8) (r x p : Nat)
    (hp : s.playing = true) (hx : x < 15) (hpc : s.PC = JSNum.num p)
    (hw : s.fetch = 0xF00A + 0x100 * x) :
    (cycle { c8keyStates := s.keyStates, random := r } s).1.PC = JSNum.num (p + 2) ∧
    (cycle { c8keyStates := s.keyStates, random := r } s).1.V x =
      if s.keyStates = [] then s.V x else 1 := by
  obtain ⟨h1, h2, h3⟩ := exec_FX0A ⟨s.keyStates, r⟩ s x p hp hx hpc hw
  have hc : (cycle ⟨s.keyStates, r⟩ s).1 = xpuCycle (exec ⟨s.keyStates, r⟩ s).1 := by
    unfold cycle
    generalize exec ⟨s.keyStates, r⟩ s = res at h1
    obtain ⟨a, b⟩ := res
    simp at h1
    subst h1
    rfl
  rw [hc, (xpuCycle_frame _).1, (xpuCycle_frame _).2, h2, h3]
  exact ⟨rfl, rfl⟩

/-- Witness for C5: `F30A` with key 5 held ends with `PC = 0x202` and `V3 = 1`. -/
theorem cycle_FX0A_never_waits_witness :
    (cycle { c8keyStates := [5], random := 0 } keyWaitState).1.PC = JSNum.num 0x202 ∧
    (cycle { c8keyStates := [5], random := 0 } keyWaitState).1.V 3 = 1 :=
  cycle_FX0A_never_waits keyWaitState 0 3 0x200 (by rfl) (by decide) (by rfl) (by decide)

theorem exec_7XNN (env : Env) (s : Chip8) (x nn : Nat)
    (hp : s.playing = true) (hx : x < 16) (hnn : nn < 256)
    (hw : s.fetch = 0x7000 + 0x100 * x + nn) :
    (exec env s).1.V = setV (setV s.V x (s.V x + nn)) 0xF (s.V 0xF) ∧
    (exec env s).1.playing = true := by
  have h1 : s.fetch &&& 0xF000 = 0x7000 := by rw [and_F000, hw]; omega
  have h2 : s.fetch &&& 0xFF = nn := by rw [and_00FF, hw]; omega
  have h3 : (s.fetch &&& 0x0F00) >>> 8 = x := by rw [and_0F00, hw]; omega
  rw [exec_of_selected env s Handler.h7000 hp
    (by rw [selected_plain _ _ _ h1 (by decide) (by decide) (by decide) (by decide) rfl]; rfl)]
  simp [decode, h2, h3, hp, callEntry, runEntry]

/-- Claim C6 (amended): for every playing state, every byte `NN` and every register
index `X` other than `0xF`, executing `7XNN` leaves `V[X] = (Vx + NN) mod 256`, so
that from `Vx = 0x01` two executions of `7XFF` end with `Vx = 0xFF`; for `X = 0xF`
the save and restore of the flag register around the entry leaves `V[0xF]` as it
was. -/
theorem exec_7XNN_wraps (env : Env) (s : Chip8) (x nn : Nat)
    (hp : s.playing = true) (hx : x < 16) (hnn : nn < 256)
    (hw : s.fetch = 0x7000 + 0x100 * x + nn) :
    (x ≠ 0xF → (exec env s).1.V x = (s.V x + nn) % 256) ∧
    (x ≠ 0xF → nn = 0xFF → s.V x = 0x01 →
      fetch (exec env s).1 = 0x7000 + 0x100 * x + nn →
      (exec env (exec env s).1).1.V x = 0xFF) ∧
    (x = 0xF → s.V 0xF < 256 → (exec env s).1.V 0xF = s.V 0xF) := by
  obtain ⟨hV, hP⟩ := exec_7XNN env s x nn hp hx hnn hw
  refine ⟨?_, ?_, ?_⟩
  · intro h6
    rw [hV]; simp [setV, h6]
  · intro h6 hff h01 hw2
    obtain ⟨hV2, -⟩ := exec_7XNN env (exec env s).1 x nn hP hx hnn hw2
    rw [hV2, hV]
    simp [setV, h6, hff, h01]
  · intro h6 hlt
    subst h6
    rw [hV]
    simp [setV, Nat.mod_eq_of_lt hlt]

/-- Witness for C6: `71FF` twice from `V1 = 0x01` gives `0x00` and then `0xFF`. -/
theorem exec_7XNN_wraps_witness :
    (exec idleEnv addTwiceState).1.V 1 = 0x00 ∧
    (exec idleEnv (exec idleEnv addTwiceState).1).1.V 1 = 0xFF :=
  have h := exec_7XNN_wraps idleEnv addTwiceState 1 0xFF (by rfl) (by decide) (by decide)
    (by decide)
  ⟨h.1 (by decide), h.2.1 (by decide) rfl (by rfl) (by decide)⟩

/-- Counterexample for C6 as stated: the state is playing, its word is `7FFF`
(`X = 0xF`, `NN = 0xFF`) and `VF = 0x01`, yet after `exec` the register `V[0xF]` is
still `0x01` and not `(0x01 + 0xFF) mod 256 = 0x00`. -/
theorem exec_7FFF_keeps_flag :
    flagAddState.playing = true ∧ flagAddState.fetch = 0x7000 + 0x100 * 0xF + 0xFF ∧
    flagAddState.V 0xF = 0x01 ∧
    (exec idleEnv flagAddState).1.V 0xF = 0x01 ∧
    (exec idleEnv flagAddState).1.V 0xF ≠ (flagAddState.V 0xF + 0xFF) % 256 := by
  decide

/-- Claim C7: for every prior machine state and every program of `N ≤ 0x0E00`
bytes, after the load handler of `loadROM` has run, `memory[0x200 + i] = byte[i]`
for every `i < N`, `memory[a] = 0` for every `a` with `0x200 + N ≤ a < 0x1000`,
`PC = 0x200`, `SP = 0`, every display pixel is unset and the run state is playing. -/
theorem loadROM_spec (s : Chip8) (prog : List Nat)
    (hlen : prog.length ≤ 0x0E00) (hbytes : ∀ b ∈ prog, b < 256) :
    (∀ i, i < prog.length → (loadROM s prog).RAM (0x200 + i) = prog.getD i 0) ∧
    (∀ a, 0x200 + prog.length ≤ a → a < 0x1000 → (loadROM s prog).RAM a = 0) ∧
    (loadROM s prog).PC = JSNum.num 0x200 ∧ (loadROM s prog).SP = 0 ∧
    (∀ j, vramGet (loadROM s prog).VRAM j = false) ∧ (loadROM s prog).playing = true := by
  have hcomm : (fun (m : Nat → Nat) (i : Nat) => taSet ramLength 256 m (i + 0x200) (prog.getD i 0)) =
      (fun m i => taSet ramLength 256 m (0x200 + i) (prog.getD i 0)) := by
    funext m i; rw [Nat.add_comm]
  have hram : ∀ a, (loadROM s prog).RAM a =
      if 0x200 ≤ a ∧ a < 0x200 + prog.length ∧ a < ramLength then prog.getD (a - 0x200) 0 % 256
      else if 0x200 ≤ a ∧ a < 0x200 + (ramLength - 0x200) ∧ a < ramLength then 0 % 256
      else (initVM { s with playing := false }).RAM a := by
    intro a
    simp only [loadROM, clearScreen, hcomm]
    rw [foldl_taSet_range ramLength 256 0x200 (fun i => prog.getD i 0)]
    rw [foldl_taSet_range ramLength 256 0x200 (fun _ => 0)]
  refine ⟨?_, ?_, rfl, rfl, ?_, rfl⟩
  · intro i hi
    rw [hram]
    have h1 : 0x200 ≤ 0x200 + i ∧ 0x200 + i < 0x200 + prog.length ∧ 0x200 + i < ramLength := by
      unfold ramLength; omega
    rw [if_pos h1]
    have hb : prog.getD i 0 < 256 := by
      apply hbytes
      rw [List.getD_eq_getElem _ _ hi]
      exact List.getElem_mem _
    simp only [Nat.add_sub_cancel_left]
    exact Nat.mod_eq_of_lt hb
  · intro a h1 h2
    rw [hram]
    have h3 : ¬ (0x200 ≤ a ∧ a < 0x200 + prog.length ∧ a < ramLength) := by omega
    have h4 : 0x200 ≤ a ∧ a < 0x200 + (ramLength - 0x200) ∧ a < ramLength := by
      unfold ramLength; omega
    rw [if_neg h3, if_pos h4]
  · intro j
    exact clearScreen_get _ j

/-- Witness for C7: loading the two bytes `12 00` into a machine whose memory
holds `FF` at every address. -/
theorem loadROM_spec_witness :
    (loadROM unknownWordState [0x12, 0x00]).RAM 0x200 = 0x12 ∧
    (loadROM unknownWordState [0x12, 0x00]).RAM 0x201 = 0x00 ∧
    (loadROM unknownWordState [0x12, 0x00]).RAM 0xFFF = 0 ∧
    (loadROM unknownWordState [0x12, 0x00]).PC = JSNum.num 0x200 ∧
    (loadROM unknownWordState [0x12, 0x00]).playing = true :=
  have h := loadROM_spec unknownWordState [0x12, 0x00] (by decide) (by decide)
  ⟨h.1 0 (by decide), h.1 1 (by decide), h.2.1 0xFFF (by decide) (by decide), h.2.2.1,
    h.2.2.2.2.2⟩

/-- Claim C8: for every playing state and every `DXYN` whose sprite lies inside
the grid (`Vx + 7 < 64`, `Vy + N - 1 < 32`) and inside memory (`I + N ≤ 4096`),
after `exec` the pixel at `(Vx + c, Vy + r)` is toggled exactly when bit `7 - c` of
`memory[I + r]` is set (`r < N`, `c < 8`), every pixel of the grid outside the
sprite rectangle is unchanged, `V[0xF] = 1` if at least one toggled pixel was set
before the draw and `V[0xF] = 0` otherwise; a buffer of at least `64 * 32` cells
keeps its length. -/
theorem exec_DXYN_in_grid (env : Env) (s : Chip8) (x y n : Nat)
    (hp : s.playing = true) (hx : x < 16) (hy : y < 16) (hn : n < 16)
    (hw : s.fetch = 0xD000 + 0x100 * x + 0x10 * y + n)
    (hcol : s.V x + 7 < 64) (hrow : s.V y + n - 1 < 32) (hmem : s.I + n ≤ 0x1000) :
    (∀ r c, r < n → c < 8 →
      vramGet (exec env s).1.VRAM (s.V x + c + 64 * (s.V y + r)) =
        xor (vramGet s.VRAM (s.V x + c + 64 * (s.V y + r)))
          ((s.RAM (s.I + r)).testBit (7 - c))) ∧
    (∀ px py, px < 64 → py < 32 →
      ¬ (s.V x ≤ px ∧ px < s.V x + 8 ∧ s.V y ≤ py ∧ py < s.V y + n) →
      vramGet (exec env s).1.VRAM (px + 64 * py) = vramGet s.VRAM (px + 64 * py)) ∧
    ((∃ r c, r < n ∧ c < 8 ∧ (s.RAM (s.I + r)).testBit (7 - c) = true ∧
        vramGet s.VRAM (s.V x + c + 64 * (s.V y + r)) = true) →
      (exec env s).1.V 0xF = 1) ∧
    ((¬ ∃ r c, r < n ∧ c < 8 ∧ (s.RAM (s.I + r)).testBit (7 - c) = true ∧
        vramGet s.VRAM (s.V x + c + 64 * (s.V y + r)) = true) →
      (exec env s).1.V 0xF = 0) ∧
    (64 * 32 ≤ s.VRAM.length → (exec env s).1.VRAM.length = s.VRAM.length) := by
  obtain ⟨hV, hF, -, -, -, -⟩ := exec_DXYN env s x y n hp hx hy hn hw
  have hbyte : ∀ r, r < n → toInt (taGet ramLength s.RAM (s.I + r)) = s.RAM (s.I + r) := by
    intro r hr
    have : s.I + r < ramLength := by unfold ramLength; omega
    simp [taGet, this, toInt]
  have hnd := nodup_cellsOf s.RAM s.I (s.V x) (s.V y) n
  have hcount : ∀ j, decide ((cellsOf s.RAM s.I (s.V x) (s.V y) n).count j % 2 = 1) =
      decide (j ∈ cellsOf s.RAM s.I (s.V x) (s.V y) n) := by
    intro j
    by_cases hj : j ∈ cellsOf s.RAM s.I (s.V x) (s.V y) n
    · simp [List.count_eq_one_of_mem hnd hj, hj]
    · simp [List.count_eq_zero_of_not_mem hj, hj]
  refine ⟨?_, ?_, ?_, ?_, ?_⟩
  · intro r c hr hc
    rw [hV, flips_get, hcount]
    congr 1
    rw [← hbyte r hr]
    by_cases hb : (toInt (taGet ramLength s.RAM (s.I + r))).testBit (7 - c) = true
    · rw [hb, decide_eq_true_iff, mem_cellsOf]
      exact ⟨r, hr, c, hc, hb, rfl⟩
    · rw [Bool.not_eq_true] at hb
      rw [hb, decide_eq_false_iff_not, mem_cellsOf]
      rintro ⟨r2, hr2, c2, hc2, hb2, he⟩
      have : r2 = r ∧ c2 = c := by omega
      rw [this.1, this.2, hb] at hb2
      exact Bool.noConfusion hb2
  · intro px py hpx hpy hout
    rw [hV, flips_get, hcount]
    have : ¬ (px + 64 * py ∈ cellsOf s.RAM s.I (s.V x) (s.V y) n) := by
      rw [mem_cellsOf]
      rintro ⟨r, hr, c, hc, -, he⟩
      apply hout
      omega
    simp [this]
  · rintro ⟨r, c, hr, hc, hb, hv⟩
    rw [hF]
    have hm : s.V x + c + 64 * (s.V y + r) ∈ cellsOf s.RAM s.I (s.V x) (s.V y) n := by
      rw [mem_cellsOf]
      exact ⟨r, hr, c, hc, by rw [hbyte r hr]; exact hb, rfl⟩
    rw [flips_vf_hit _ _ _ _ hm hv]
    simp [setV]
  · intro hno
    rw [hF, flips_vf_clear _ _ _ hnd]
    · simp [setV]
    · intro i hi
      rw [mem_cellsOf] at hi
      obtain ⟨r, hr, c, hc, hb, rfl⟩ := hi
      rw [hbyte r hr] at hb
      by_contra hv
      rw [Bool.not_eq_false] at hv
      exact hno ⟨r, c, hr, hc, hb, hv⟩
  · intro hlen
    rw [hV]
    apply flips_length
    intro i hi
    rw [mem_cellsOf] at hi
    obtain ⟨r, hr, c, hc, -, rfl⟩ := hi
    omega

/-- Witness for C8: `D012` at `(10, 5)` with sprite bytes `A5 FF` on an empty
screen lights `(10, 5)` (bit 7 of `A5`), leaves `(11, 5)` dark (bit 6) and
reports no collision. -/
theorem exec_DXYN_in_grid_witness :
    vramGet (exec idleEnv drawState).1.VRAM (10 + 0 + 64 * (5 + 0)) =
      xor (vramGet drawState.VRAM (10 + 0 + 64 * (5 + 0))) true ∧
    vramGet (exec idleEnv drawState).1.VRAM (10 + 1 + 64 * (5 + 0)) =
      xor (vramGet drawState.VRAM (10 + 1 + 64 * (5 + 0))) false ∧
    (exec idleEnv drawState).1.V 0xF = 0 :=
  have h := exec_DXYN_in_grid idleEnv drawState 0 1 2 (by rfl) (by decide) (by decide)
    (by decide) (by decide) (by decide) (by decide) (by decide)
  ⟨h.1 0 0 (by decide) (by decide), h.1 0 1 (by decide) (by decide),
    h.2.2.2.1 (fun ⟨_, _, _, _, _, hv⟩ =>
      Bool.noConfusion ((vramGet_replicate (64 * 32) _).symm.trans hv))⟩

/-- Claim C9 (amended): for all non-negative integers `x` and `y` whose cell index
`x + 64 * y` is an array index (`x + 64 * y < 2 ^ 32 - 1`), `flipPixel(x, y)`
toggles exactly the buffer cell of index `x + 64 * y` (the pixel `(x, y)` of the
row-major grid when `x < 64` and `y < 32`; coordinates are not wrapped), leaves
every other cell unchanged and returns true exactly when that cell was set before
the call; the buffer keeps its length when the index lies inside it and grows to
`x + 64 * y + 1` cells otherwise, which is at most `2 ^ 32 - 1`, the largest array
length such a write can produce. -/
theorem flipPixel_toggles_cell (vram : List Bool) (x y : Nat)
    (hidx : x + 64 * y < 2 ^ 32 - 1) :
    vramGet (flipPixel vram x y).1 (x + 64 * y) = (!(vramGet vram (x + 64 * y))) ∧
    (∀ j, j ≠ x + 64 * y → vramGet (flipPixel vram x y).1 j = vramGet vram j) ∧
    (flipPixel vram x y).2 = vramGet vram (x + 64 * y) ∧
    (flipPixel vram x y).1.length = max vram.length (x + 64 * y + 1) ∧
    (flipPixel vram x y).1.length ≤ max vram.length (2 ^ 32 - 1) := by
  rw [flipPixel_eq]
  refine ⟨?_, ?_, rfl, ?_, ?_⟩
  · simp [vramGet_vramSet]
  · intro j hj; simp [vramGet_vramSet, hj]
  · exact vramSet_length _ _ _
  · rw [vramSet_length]
    omega

/-- Witness for C9: on the list `[false, true]`, `flipPixel(1, 0)` clears the cell
1, leaves the cell 0, returns true and keeps the length 2. -/
theorem flipPixel_toggles_cell_witness :
    vramGet (flipPixel [false, true] 1 0).1 (1 + 64 * 0) = false ∧
    vramGet (flipPixel [false, true] 1 0).1 0 = false ∧
    (flipPixel [false, true] 1 0).2 = true ∧
    (flipPixel [false, true] 1 0).1.length = 2 :=
  have h := flipPixel_toggles_cell [false, true] 1 0 (by decide)
  ⟨h.1, h.2.1 0 (by decide), h.2.2.1, h.2.2.2.1⟩

/-- Counterexample for C9 as stated: on the empty 2048-cell screen,
`flipPixel(64, 0)` leaves the pixel at the wrapped coordinates `(0, 0)` unset and
sets the pixel `(0, 1)`, and `flipPixel(0, 32)` grows the buffer to 2049 cells. -/
theorem flipPixel_no_wrap :
    construct.VRAM.length = 2048 ∧
    vramGet (flipPixel construct.VRAM 64 0).1 (64 % 64 + 64 * (0 % 32)) = false ∧
    vramGet (flipPixel construct.VRAM 64 0).1 (0 + 64 * 1) = true ∧
    (flipPixel construct.VRAM 0 32).1.length = 2049 := by
  have hv : construct.VRAM = List.replicate (64 * 32) false := rfl
  rw [hv, flipPixel_eq, flipPixel_eq]
  refine ⟨?_, ?_, ?_, ?_⟩
  · rw [List.length_replicate]
  · rw [vramGet_vramSet, vramGet_replicate]; rfl
  · rw [vramGet_vramSet, vramGet_replicate]; rfl
  · rw [vramSet_length, List.length_replicate]; rfl

/-- Claim C10 (what the code does): for every playing state whose instruction word
at `PC` is `0x00E0`, one `exec` leaves the display buffer exactly as it was: the
entry evaluates to the method `clearScreen` without calling it. -/
theorem exec_00E0_keeps_buffer (env : Env) (s : Chip8)
    (hp : s.playing = true) (hw : s.fetch = 0x00E0) :
    (exec env s).1.VRAM = s.VRAM := by
  have hs : selected s.table s.fetch = some Handler.h00E0 := by
    rw [hw]; rfl
  rw [exec_of_selected env s _ hp hs]
  simp [decode, callEntry, runEntry]

/-- Witness for C10: a screen whose first pixel is set still has it set after `00E0`. -/
theorem exec_00E0_keeps_buffer_witness :
    (exec idleEnv litScreenState).1.VRAM = litScreenState.VRAM ∧
    vramGet litScreenState.VRAM 0 = true :=
  ⟨exec_00E0_keeps_buffer idleEnv litScreenState (by rfl) (by decide), rfl⟩

/-! ## Lemmas for the arithmetic entries -/

theorem has_assign (t : InsTable) (k : Nat) : t.assign.has k = t.has k := by
  unfold InsTable.has
  by_cases h0 : k = 0
  · subst h0; rfl
  · by_cases h7 : k = 7
    · subst h7; rfl
    · simp only [InsTable.get, InsTable.assign, if_neg h0, if_neg h7]

theorem get_assign_zero (t : InsTable) : t.assign.get 0 = some Handler.h0000p := rfl

theorem exec_8XY0 (env : Env) (s : Chip8) (x y : Nat)
    (hp : s.playing = true) (hx : x < 16) (hy : y < 16)
    (hw : s.fetch = 0x8000 + 0x100 * x + 0x10 * y) :
    (exec env s).1.V =
      setV (if s.table.has s.table.opcode then setV s.V x (s.V y) else s.V) 0xF (s.V 0xF) ∧
    (exec env s).2 = none ∧ (exec env s).1.ins = some s.table.assign := by
  have h1 : s.fetch &&& 0xF000 = 0x8000 := by rw [and_F000, hw]; omega
  have h2 : s.fetch &&& 0xF = 0 := by rw [and_000F, hw]; omega
  have h3 : (s.fetch &&& 0x0F00) >>> 8 = x := by rw [and_0F00, hw]; omega
  have h4 : (s.fetch &&& 0x00F0) >>> 4 = y := by rw [and_00F0, hw]; omega
  have hs : selected s.table s.fetch = some Handler.h8000 := by
    simp [selected, dispatchKey, h1, h2, andNum, orVal, lookup, InsTable.has, InsTable.get]
  rw [exec_of_selected env s Handler.h8000 hp hs]
  simp only [callEntry, has_assign, decode, h2, get_assign_zero]
  by_cases hk : s.table.has s.table.opcode = true
  · simp [hk, has_assign, runEntry, h3, h4]
  · simp [hk, has_assign]

theorem toUint8_cast (z : Int) : ((toUint8 z : Nat) : Int) = z % 256 := by
  unfold toUint8
  exact Int.toNat_of_nonneg (Int.emod_nonneg _ (by decide))

theorem toUint8_lt (z : Int) : toUint8 z < 256 := by
  have h := toUint8_cast z
  have h2 : z % 256 < 256 := Int.emod_lt_of_pos _ (by decide)
  omega

/-! ## Claims C11 to C20 -/

/-- Claim C11 (what the code does): for every playing state and every `8XY0` with
`X ≠ 0xF`, one `exec` copies the prior `V[Y]` into `V[X]` only when the word that
the dispatch table captured when it was built (the first word this machine ever
executed) is itself a key of the table; otherwise `V[X]` keeps its value. Every
other general register below `0xF` is unchanged in both cases. -/
theorem exec_8XY0_copies_only_if_first_word_is_key (env : Env) (s : Chip8) (x y : Nat)
    (hp : s.playing = true) (hx : x < 15) (hy : y < 16)
    (hw : s.fetch = 0x8000 + 0x100 * x + 0x10 * y) :
    (s.table.has s.table.opcode = true → (exec env s).1.V x = s.V y % 256) ∧
    (s.table.has s.table.opcode = false → (exec env s).1.V x = s.V x) ∧
    (∀ i, i ≠ x → i ≠ 0xF → (exec env s).1.V i = s.V i) := by
  obtain ⟨hV, -, -⟩ := exec_8XY0 env s x y hp (by omega) hy hw
  have hx15 : x ≠ 15 := by omega
  rw [hV]
  refine ⟨?_, ?_, ?_⟩
  · intro hk; simp [hk, setV, Function.update, hx15]
  · intro hk; simp [hk, setV, Function.update, hx15]
  · intro i hi hi15
    by_cases hk : s.table.has s.table.opcode = true
    · simp [hk, setV, Function.update, hi, hi15]
    · simp [hk, setV, Function.update, hi15]

/-- Witness for C11: in a freshly loaded machine running `6205 8120` the table
captures the word `6205`, which is no key, so `8120` leaves `V1 = 0` although
`V2 = 5`. -/
theorem exec_8XY0_copies_only_if_first_word_is_key_witness :
    (exec idleEnv (exec idleEnv copyProgram).1).1.V 1 = 0 ∧
    (exec idleEnv copyProgram).1.V 2 = 5 :=
  have h := exec_8XY0_copies_only_if_first_word_is_key idleEnv (exec idleEnv copyProgram).1 1 2
    (by decide) (by decide) (by decide) (by decide)
  ⟨(h.2.1 (by decide)).trans (by decide), by decide⟩

/-- Claim C12 (what the code does): for every playing state and every `8XY7` with
`X ≠ 0xF`, one `exec` runs the entry stored under the key `0x0007`. Until some
`0x8000` entry has run `Object.assign` that entry is the body of `FX07`: `V[X]`
becomes `DT` and `V[0xF]` keeps its value. Only afterwards it is the `8XY7` body:
`V[0xF] = 1` if `Vy > Vx` else `0` and `V[X] = (Vy - Vx) mod 256`. -/
theorem exec_8XY7_depends_on_assign (env : Env) (s : Chip8) (x y : Nat)
    (hp : s.playing = true) (hx : x < 15) (hy : y < 16)
    (hw : s.fetch = 0x8007 + 0x100 * x + 0x10 * y) :
    (s.table.assigned = false →
      (exec env s).1.V x = s.DT % 256 ∧ (exec env s).1.V 0xF = s.V 0xF % 256) ∧
    (s.table.assigned = true →
      ((exec env s).1.V x : Int) = ((s.V y : Int) - (s.V x : Int)) % 256 ∧
      (exec env s).1.V 0xF = if s.V y > s.V x then 1 else 0) := by
  have h1 : s.fetch &&& 0xF000 = 0x8000 := by rw [and_F000, hw]; omega
  have h2 : s.fetch &&& 0xF = 7 := by rw [and_000F, hw]; omega
  have h3 : (s.fetch &&& 0x0F00) >>> 8 = x := by rw [and_0F00, hw]; omega
  have h4 : (s.fetch &&& 0x00F0) >>> 4 = y := by rw [and_00F0, hw]; omega
  have hx15 : x ≠ 15 := by omega
  have hs := selected_sub s.table s.fetch _ 7 h1 (Or.inl ⟨rfl, h2⟩) (by decide) rfl
  constructor
  · intro ha
    have hg : s.table.get 7 = some Handler.h0007 := by
      simp [InsTable.get, ha]
    rw [exec_of_selected env s Handler.h0007 hp (hs.trans hg)]
    simp [decode, h3, hx15, callEntry, runEntry, setV]
  · intro ha
    have hg : s.table.get 7 = some Handler.h0007p := by
      simp [InsTable.get, ha]
    rw [exec_of_selected env s Handler.h0007p hp (hs.trans hg)]
    have hlt := toUint8_lt ((s.V y : Int) - (s.V x : Int))
    have hneg : ¬ ((toUint8 ((s.V y : Int) - (s.V x : Int)) % 256 : Nat) : Int) < 0 := by omega
    simp only [decode, h3, h4, callEntry, runEntry, setV, Function.update_same, hneg, if_false]
    constructor
    · simp only [Function.update, hx15, dite_false, eq_rec_constant, dite_true, Nat.mod_eq_of_lt hlt]
      simp [hx15, Nat.mod_eq_of_lt hlt, toUint8_cast]
    · by_cases hgt : s.V y > s.V x
      · simp [hgt]
      · simp [hgt]

/-- Witness for C12: in a freshly loaded machine running `6102 6205 8127` the
third instruction finds `V1 = 2`, `V2 = 5`, `DT = 0` and leaves `V1 = 0`, `VF = 0`
(the claim asks for `V1 = 3`, `VF = 1`). -/
theorem exec_8XY7_depends_on_assign_witness :
    (exec idleEnv (exec idleEnv (exec idleEnv reverseSubProgram).1).1).1.V 1 = 0 ∧
    (exec idleEnv (exec idleEnv (exec idleEnv reverseSubProgram).1).1).1.V 0xF = 0 ∧
    (exec idleEnv (exec idleEnv reverseSubProgram).1).1.V 1 = 2 ∧
    (exec idleEnv (exec idleEnv reverseSubProgram).1).1.V 2 = 5 :=
  have h := (exec_8XY7_depends_on_assign idleEnv
    (exec idleEnv (exec idleEnv reverseSubProgram).1).1 1 2
    (by decide) (by decide) (by decide) (by decide)).1 (by decide)
  ⟨h.1.trans (by decide), h.2.trans (by decide), by decide, by decide⟩

/-- Claim C13 (what the code does): for every playing state and every `8XYE` with
`X ≠ 0xF`, one `exec` leaves `V[X] = (Vx << 1) mod 256` and leaves in `V[0xF]` the
masked value `Vx AND 0x80`, that is `0x80` (not 1) when bit 7 of the prior `Vx`
was set and `0` otherwise. -/
theorem exec_8XYE_flag_is_mask (env : Env) (s : Chip8) (x y : Nat)
    (hp : s.playing = true) (hx : x < 15) (hy : y < 16)
    (hw : s.fetch = 0x800E + 0x100 * x + 0x10 * y) :
    (exec env s).1.V x = (s.V x <<< 1) % 256 ∧
    (exec env s).1.V 0xF = if (s.V x).testBit 7 then 0x80 else 0 := by
  have h1 : s.fetch &&& 0xF000 = 0x8000 := by rw [and_F000, hw]; omega
  have h2 : s.fetch &&& 0xF = 0xE := by rw [and_000F, hw]; omega
  have h3 : (s.fetch &&& 0x0F00) >>> 8 = x := by rw [and_0F00, hw]; omega
  have hx15 : x ≠ 15 := by omega
  have hmask : s.V x &&& 0x80 = if (s.V x).testBit 7 then 0x80 else 0 := by
    have := Nat.and_two_pow (s.V x) 7
    simp only [Nat.reducePow] at this
    rw [this]
    cases (s.V x).testBit 7 <;> simp
  have hle : ¬ 255 < (s.V x <<< 1) % 256 := by omega
  rw [exec_of_selected env s Handler.h000E hp
    (by rw [selected_sub _ _ _ 0xE h1 (Or.inl ⟨rfl, h2⟩) (by decide) rfl]; rfl)]
  simp only [decode, h3, callEntry, runEntry, setV, Function.update_same, hle, if_false, hmask]
  constructor
  · simp [Function.update, hx15]
  · cases (s.V x).testBit 7 <;> simp

/-- Witness for C13: `810E` with `V1 = 0x81` gives `V1 = 0x02` and `VF = 0x80`. -/
theorem exec_8XYE_flag_is_mask_witness :
    (exec idleEnv shiftState).1.V 1 = 0x02 ∧ (exec idleEnv shiftState).1.V 0xF = 0x80 :=
  have h := exec_8XYE_flag_is_mask idleEnv shiftState 1 0 (by rfl) (by decide) (by decide)
    (by decide)
  ⟨h.1.trans (by decide), h.2.trans (by decide)⟩

/-- Claim C14: for every playing state and every `8XY5` with `X ≠ 0xF`, one `exec`
leaves `V[0xF] = 1` if `Vx > Vy` else `0` and `V[X] = (Vx - Vy) mod 256`, `Vx` and
`Vy` being the values before the instruction. -/
theorem exec_8XY5_spec (env : Env) (s : Chip8) (x y : Nat)
    (hp : s.playing = true) (hx : x < 15) (hy : y < 16)
    (hw : s.fetch = 0x8005 + 0x100 * x + 0x10 * y) :
    (exec env s).1.V 0xF = (if s.V x > s.V y then 1 else 0) ∧
    ((exec env s).1.V x : Int) = ((s.V x : Int) - (s.V y : Int)) % 256 := by
  have h1 : s.fetch &&& 0xF000 = 0x8000 := by rw [and_F000, hw]; omega
  have h2 : s.fetch &&& 0xF = 5 := by rw [and_000F, hw]; omega
  have h3 : (s.fetch &&& 0x0F00) >>> 8 = x := by rw [and_0F00, hw]; omega
  have h4 : (s.fetch &&& 0x00F0) >>> 4 = y := by rw [and_00F0, hw]; omega
  have hx15 : x ≠ 15 := by omega
  rw [exec_of_selected env s Handler.h0005 hp
    (by rw [selected_sub _ _ _ 5 h1 (Or.inl ⟨rfl, h2⟩) (by decide) rfl]; rfl)]
  have hlt := toUint8_lt ((s.V x : Int) - (s.V y : Int))
  have hneg : ¬ ((toUint8 ((s.V x : Int) - (s.V y : Int)) % 256 : Nat) : Int) < 0 := by omega
  simp only [decode, h3, h4, callEntry, runEntry, setV, Function.update_same, hneg, if_false]
  constructor
  · by_cases hgt : s.V x > s.V y
    · simp [hgt]
    · simp [hgt]
  · simp [Function.update, hx15, Nat.mod_eq_of_lt hlt, toUint8_cast]

/-- Witness for C14: `8125` with `V1 = 0x02`, `V2 = 0x05` gives `V1 = 0xFD`, `VF = 0`. -/
theorem exec_8XY5_spec_witness :
    (exec idleEnv borrowState).1.V 0xF = 0 ∧ (exec idleEnv borrowState).1.V 1 = 0xFD := by
  obtain ⟨h1, h2⟩ :=
    exec_8XY5_spec idleEnv borrowState 1 2 (by rfl) (by decide) (by decide) (by decide)
  have e : ((borrowState.V 1 : Int) - (borrowState.V 2 : Int)) % 256 = 253 := by decide
  exact ⟨h1.trans (by decide), by omega⟩

/-- Claim C15: for every playing state (registers holding bytes) and every `FX33`,
after one `exec` the bytes at the addresses `I mod 4096`, `(I+1) mod 4096` and
`(I+2) mod 4096` are the hundreds, tens and units digits `h`, `t`, `u` of the prior
`Vx`: each is at most 9 and `100*h + 10*t + u = Vx`; no other memory byte changes. -/
theorem exec_FX33_spec (env : Env) (s : Chip8) (x : Nat)
    (hp : s.playing = true) (hx : x < 16) (hbyte : s.V x < 256)
    (hw : s.fetch = 0xF033 + 0x100 * x) :
    (exec env s).1.RAM (s.I % 4096) = s.V x / 100 ∧
    (exec env s).1.RAM ((s.I + 1) % 4096) = s.V x / 10 % 10 ∧
    (exec env s).1.RAM ((s.I + 2) % 4096) = s.V x % 10 ∧
    s.V x / 100 ≤ 9 ∧ s.V x / 10 % 10 ≤ 9 ∧ s.V x % 10 ≤ 9 ∧
    100 * (s.V x / 100) + 10 * (s.V x / 10 % 10) + s.V x % 10 = s.V x ∧
    (∀ a, a ≠ s.I % 4096 → a ≠ (s.I + 1) % 4096 → a ≠ (s.I + 2) % 4096 →
      (exec env s).1.RAM a = s.RAM a) := by
  have h1 : s.fetch &&& 0xF000 = 0xF000 := by rw [and_F000, hw]; omega
  have h2 : s.fetch &&& 0xFF = 0x33 := by rw [and_00FF, hw]; omega
  have h3 : (s.fetch &&& 0x0F00) >>> 8 = x := by rw [and_0F00, hw]; omega
  rw [exec_of_selected env s Handler.h0033 hp
    (by rw [selected_sub _ _ _ 0x33 h1 (Or.inr ⟨Or.inr rfl, h2⟩) (by decide) rfl]; rfl)]
  have b0 : s.I % 4096 < ramLength := by unfold ramLength; omega
  have b1 : (s.I + 1) % 4096 < ramLength := by unfold ramLength; omega
  have b2 : (s.I + 2) % 4096 < ramLength := by unfold ramLength; omega
  have d01 : s.I % 4096 ≠ (s.I + 1) % 4096 := by omega
  have d02 : s.I % 4096 ≠ (s.I + 2) % 4096 := by omega
  have d12 : (s.I + 1) % 4096 ≠ (s.I + 2) % 4096 := by omega
  simp only [decode, h3, callEntry, runEntry, and_0FFF, Nat.add_zero, taSet_apply]
  refine ⟨?_, ?_, ?_, by omega, by omega, by omega, by omega, ?_⟩
  · simp only [b0, b1, b2, d01, d02, true_and, and_false, if_false, if_true]
    omega
  · simp only [b2, d12, true_and, if_false, b1, if_true]
    omega
  · simp only [b2, true_and, if_true]
    omega
  · intro a h0 h1 h2
    simp [h0, h1, h2]

/-- Witness for C15: `F133` with `V1 = 254` and `I = 0x300` stores `2`, `5`, `4`. -/
theorem exec_FX33_spec_witness :
    (exec idleEnv bcdState).1.RAM 0x300 = 2 ∧ (exec idleEnv bcdState).1.RAM 0x301 = 5 ∧
    (exec idleEnv bcdState).1.RAM 0x302 = 4 := by
  obtain ⟨h0, h1, h2, -⟩ :=
    exec_FX33_spec idleEnv bcdState 1 (by rfl) (by decide) (by decide) (by decide)
  exact ⟨h0, h1, h2⟩

theorem setV_apply (v : Nat → Nat) (j x i : Nat) :
    setV v j x i = if i = j then x % 256 else v i := by
  unfold setV
  by_cases h : i = j
  · subst h; simp
  · simp [h, Function.update_noteq h]

theorem foldl_setV_range (g : Nat → Nat) :
    ∀ (k : Nat) (v : Nat → Nat) (i : Nat),
      ((List.range k).foldl (fun v j => setV v j (g j)) v) i =
        if i < k then g i % 256 else v i := by
  intro k
  induction k with
  | zero => intro v i; simp
  | succ k ih =>
    intro v i
    rw [List.range_succ, List.foldl_append, List.foldl_cons, List.foldl_nil, setV_apply]
    by_cases hi : i = k
    · subst hi; simp
    · rw [if_neg hi, ih]
      by_cases h2 : i < k
      · have : i < k + 1 := by omega
        simp [h2, this]
      · have : ¬ i < k + 1 := by omega
        simp [h2, this]

theorem exec_FX65 (env : Env) (s : Chip8) (x : Nat)
    (hp : s.playing = true) (hx : x < 16) (hw : s.fetch = 0xF065 + 0x100 * x) :
    (exec env s).1.V =
      setV (fun i => if i < x + 1 then toInt (s.getRAM (s.I + i)) % 256 else s.V i) 0xF
        (s.V 0xF) ∧
    (exec env s).1.RAM = s.RAM := by
  have h1 : s.fetch &&& 0xF000 = 0xF000 := by rw [and_F000, hw]; omega
  have h2 : s.fetch &&& 0xFF = 0x65 := by rw [and_00FF, hw]; omega
  have h3 : (s.fetch &&& 0x0F00) >>> 8 = x := by rw [and_0F00, hw]; omega
  rw [exec_of_selected env s Handler.h0065 hp
    (by rw [selected_sub _ _ _ 0x65 h1 (Or.inr ⟨Or.inr rfl, h2⟩) (by decide) rfl]; rfl)]
  have hfold : (List.range (x + 1)).foldl
      (fun v i => setV v i (toInt (taGet ramLength s.RAM (s.I + i)))) s.V =
      fun i => if i < x + 1 then toInt (taGet ramLength s.RAM (s.I + i)) % 256 else s.V i :=
    funext (foldl_setV_range (fun i => toInt (taGet ramLength s.RAM (s.I + i))) (x + 1) s.V)
  simp only [decode, h3, callEntry, runEntry, getRAM, hfold, and_self]

/-- Claim C16 (amended): for every playing state (memory and registers holding
bytes), every register index `X` in `0x0..0xF` and every `I` with `I + X ≤ 0xFFF`,
executing `FX65` leaves `V[i] = memory[I + i]` for every `i` in `0..X` other than
`0xF`, leaves `V[0xF]` as it was (the flag register is restored after the entry,
also when `X = 0xF`), and leaves the registers with index above `X` and all of
memory unchanged. -/
theorem exec_FX65_loads_below_flag (env : Env) (s : Chip8) (x : Nat)
    (hp : s.playing = true) (hx : x < 16) (hI : s.I + x ≤ 0xFFF)
    (hmem : ∀ a, a < 0x1000 → s.RAM a < 256) (hflag : s.V 0xF < 256)
    (hw : s.fetch = 0xF065 + 0x100 * x) :
    (∀ i, i ≤ x → i ≠ 0xF → (exec env s).1.V i = s.RAM (s.I + i)) ∧
    (exec env s).1.V 0xF = s.V 0xF ∧
    (∀ i, x < i → i < 16 → (exec env s).1.V i = s.V i) ∧
    (exec env s).1.RAM = s.RAM := by
  obtain ⟨hV, hR⟩ := exec_FX65 env s x hp hx hw
  rw [hV]
  refine ⟨?_, ?_, ?_, hR⟩
  · intro i hi h15
    have hlt : s.I + i < ramLength := by unfold ramLength; omega
    have hi2 : i < x + 1 := by omega
    simp [setV, Function.update, h15, hi2, getRAM, taGet, hlt, toInt,
      Nat.mod_eq_of_lt (hmem (s.I + i) hlt)]
  · simp [setV, Nat.mod_eq_of_lt hflag]
  · intro i hi h16
    by_cases h15 : i = 15
    · subst h15; simp [setV, Nat.mod_eq_of_lt hflag]
    · have hi2 : ¬ i < x + 1 := by omega
      simp [setV, Function.update, h15, hi2]

/-- Witness for C16: `F165` with `I = 0x300` and memory bytes `03 04` loads
`V0 = 3`, `V1 = 4` and keeps `V2 = 9`. -/
theorem exec_FX65_loads_below_flag_witness :
    (exec idleEnv loadRegsState).1.V 0 = 3 ∧ (exec idleEnv loadRegsState).1.V 1 = 4 ∧
    (exec idleEnv loadRegsState).1.V 2 = 9 := by
  have hmem : ∀ a, a < 0x1000 → loadRegsState.RAM a < 256 := by
    intro a _
    show (if a = 0x200 then 0xF1 else if a = 0x201 then 0x65
      else if a = 0x300 then 0x03 else if a = 0x301 then 0x04 else 0) < 256
    split_ifs <;> decide
  obtain ⟨h1, -, h3, -⟩ := exec_FX65_loads_below_flag idleEnv loadRegsState 1 (by rfl)
    (by decide) (by decide) hmem (by decide) (by decide)
  exact ⟨h1 0 (by decide) (by decide), h1 1 (by decide) (by decide),
    h3 2 (by decide) (by decide)⟩

/-- Counterexample for C16 as stated: the state is playing, its word is `FF65`
(`X = 0xF`), `I + 0xF ≤ 0xFFF` and `memory[I + 0xF] = 7`, yet after `exec` the
register `V[0xF]` still holds `1`, not `memory[I + 0xF]`. -/
theorem exec_FF65_keeps_flag :
    loadAllRegsState.playing = true ∧ loadAllRegsState.fetch = 0xF065 + 0x100 * 0xF ∧
    loadAllRegsState.I + 0xF ≤ 0xFFF ∧ loadAllRegsState.RAM (loadAllRegsState.I + 0xF) = 7 ∧
    (exec idleEnv loadAllRegsState).1.V 0xF = 1 ∧
    (exec idleEnv loadAllRegsState).1.V 0xF ≠
      loadAllRegsState.RAM (loadAllRegsState.I + 0xF) := by
  decide

/-- Claim C17 (what the code does): for every playing state in which some `0x8000`
entry has already run `Object.assign`, and every `FX07` with `X ≠ 0xF`, `exec` runs
the `8XY7` body stored under the key `0x0007` (with `Y = 0`) and leaves
`V[0xF] = 1` if `V0 > Vx` else `0`, whatever `V[0xF]` was before. -/
theorem exec_FX07_after_assign_writes_flag (env : Env) (s : Chip8) (x : Nat)
    (hp : s.playing = true) (hx : x < 15) (ha : s.table.assigned = true)
    (hw : s.fetch = 0xF007 + 0x100 * x) :
    (exec env s).1.V 0xF = if s.V 0 > s.V x then 1 else 0 := by
  have h1 : s.fetch &&& 0xF000 = 0xF000 := by rw [and_F000, hw]; omega
  have h2 : s.fetch &&& 0xFF = 7 := by rw [and_00FF, hw]; omega
  have h3 : (s.fetch &&& 0x0F00) >>> 8 = x := by rw [and_0F00, hw]; omega
  have h4 : (s.fetch &&& 0x00F0) >>> 4 = 0 := by rw [and_00F0, hw]; omega
  have hs := selected_sub s.table s.fetch _ 7 h1 (Or.inr ⟨Or.inr rfl, h2⟩) (by decide) rfl
  have hg : s.table.get 7 = some Handler.h0007p := by
    simp [InsTable.get, ha]
  rw [exec_of_selected env s Handler.h0007p hp (hs.trans hg)]
  simp only [decode, h3, h4, callEntry, runEntry, setV, Function.update_same]
  by_cases hgt : s.V 0 > s.V x
  · simp [hgt]
  · simp [hgt]

/-- Witness for C17: in a freshly loaded machine running `6005 8000 F107` the third
instruction finds `VF = 0` and leaves `VF = 1`. -/
theorem exec_FX07_after_assign_writes_flag_witness :
    (exec idleEnv (exec idleEnv timerReadProgram).1).1.V 0xF = 0 ∧
    (exec idleEnv (exec idleEnv (exec idleEnv timerReadProgram).1).1).1.V 0xF = 1 :=
  have h := exec_FX07_after_assign_writes_flag idleEnv
    (exec idleEnv (exec idleEnv timerReadProgram).1).1 1
    (by decide) (by decide) (by decide) (by decide)
  ⟨by decide, h.trans (by decide)⟩

/-- Claim C18: for every playing state, one frame step (`xpuCycle`) leaves
`DT' = DT - 1` if `DT > 0` else `0` and `ST' = ST - 1` if `ST > 0` else `0`, and
the tone-start signal is raised in that step exactly when `ST' = 1` after a
decrement, that is exactly when `ST` was 2 before the step (and then once). -/
theorem xpuCycle_timers (s : Chip8) (hp : s.playing = true) :
    (xpuCycle s).DT = (if s.DT > 0 then s.DT - 1 else 0) ∧
    (xpuCycle s).ST = (if s.ST > 0 then s.ST - 1 else 0) ∧
    ((xpuCycle s).beeps = s.beeps + 1 ↔ (s.ST > 0 ∧ (xpuCycle s).ST = 1)) ∧
    ((xpuCycle s).beeps = s.beeps + 1 ↔ s.ST = 2) ∧
    ((xpuCycle s).beeps = s.beeps ↔ s.ST ≠ 2) := by
  simp only [xpuCycle, hp, beep]
  by_cases hd : s.DT > 0 <;> by_cases hs : s.ST > 0 <;> by_cases h2 : s.ST = 2 <;>
    simp [hd, hs, h2] <;> omega

/-- Witness for C18: from `DT = 3`, `ST = 2` one frame leaves `DT = 2`, `ST = 1`
and raises the tone once. -/
theorem xpuCycle_timers_witness :
    (xpuCycle timerState).DT = 2 ∧ (xpuCycle timerState).ST = 1 ∧
    (xpuCycle timerState).beeps = timerState.beeps + 1 :=
  have h := xpuCycle_timers timerState (by rfl)
  ⟨h.1, h.2.1, h.2.2.2.1.mpr (by rfl)⟩

theorem fetch_ne_zero_pc_lt (s : Chip8) (p : Nat) (hpc : s.PC = JSNum.num p)
    (hf : s.fetch ≠ 0) : p < 0x1000 := by
  by_contra h
  apply hf
  have a : ¬ p < ramLength := h
  have b : ¬ p + 1 < ramLength := by unfold ramLength; omega
  simp [fetch, hpc, JSNum.add, getRAMAt, getRAM, taGet, a, b, toInt]

/-- Claim C19 (amended): for every playing state, `2NNN` increments the stack
pointer by one without reducing it modulo 16; when `0 ≤ SP ≤ 11` it stores the
return address in the call-stack slot `SP` (which is `SP mod 16`) and leaves the
other slots unchanged, and whenever `SP` is not negative the return address goes
into one slot of the 16-entry call stack, the others being unchanged. `00EE`
decrements the stack pointer by one without reducing it, and the popped `PC` is the
stack entry of index `SP - 1` when `1 ≤ SP ≤ 16` and `undefined` otherwise. -/
theorem call_and_return_stack_pointer (env : Env) (s : Chip8) (p nnn : Nat)
    (hp : s.playing = true) (hpc : s.PC = JSNum.num p) (hnnn : nnn < 0x1000) :
    (s.fetch = 0x2000 + nnn →
      (exec env s).1.SP = s.SP + 1 ∧ (exec env s).1.PC = JSNum.num nnn ∧
      (0 ≤ s.SP → s.SP ≤ 11 →
        (exec env s).1.stack s.SP.toNat = p + 2 ∧
        ∀ j, j ≠ s.SP.toNat → (exec env s).1.stack j = s.stack j) ∧
      (0 ≤ s.SP → ∃ k, k < 16 ∧ (exec env s).1.stack k = p + 2 ∧
        ∀ j, j ≠ k → (exec env s).1.stack j = s.stack j)) ∧
    (s.fetch = 0x00EE →
      (exec env s).1.SP = s.SP - 1 ∧
      (1 ≤ s.SP → s.SP ≤ 16 →
        (exec env s).1.PC = JSNum.num (s.stack (s.SP - 1).toNat)) ∧
      (s.SP < 1 ∨ 16 < s.SP → (exec env s).1.PC = JSNum.undefined)) := by
  constructor
  · intro hw
    have h1 : s.fetch &&& 0xF000 = 0x2000 := by rw [and_F000, hw]; omega
    have h2 : s.fetch &&& 0xFFF = nnn := by rw [and_0FFF, hw]; omega
    have hplt : p < 0x1000 := fetch_ne_zero_pc_lt s p hpc (by rw [hw]; omega)
    have hret : (p + 2) % 65536 = p + 2 := Nat.mod_eq_of_lt (by omega)
    rw [exec_of_selected env s Handler.h2000 hp
      (by rw [selected_plain _ _ _ h1 (by decide) (by decide) (by decide) (by decide) rfl]; rfl)]
    simp only [callEntry, runEntry, decode, hpc, h2, JSNum.add, JSNum.truthy, JSNum.toUint16]
    refine ⟨by simp, by simp, ?_, ?_⟩
    · intro hsp h11
      have hslot : Int.tmod s.SP 0xC = s.SP := Int.tmod_eq_of_lt hsp (by omega)
      have hlt : s.SP.toNat < stackLength := by unfold stackLength; omega
      constructor
      · simp [hslot, hsp, taSet_apply, hlt, hret]
      · intro j hj
        simp [hslot, hsp, taSet_apply, hj]
    · intro hsp
      have hslot0 : 0 ≤ Int.tmod s.SP 0xC := Int.tmod_nonneg _ hsp
      have hslot1 : Int.tmod s.SP 0xC < 0xC := Int.tmod_lt_of_pos _ (by decide)
      refine ⟨(Int.tmod s.SP 0xC).toNat, by omega, ?_, ?_⟩
      · have : (Int.tmod s.SP 0xC).toNat < stackLength := by unfold stackLength; omega
        simp [hslot0, taSet_apply, this, hret]
      · intro j hj
        simp [hslot0, taSet_apply, hj]
  · intro hw
    have hs : selected s.table s.fetch = some Handler.h00EE := by
      rw [hw]; rfl
    rw [exec_of_selected env s _ hp hs]
    simp only [callEntry, runEntry, decode]
    refine ⟨trivial, ?_, ?_⟩
    · intro h1 h16
      have a : 0 ≤ s.SP - 1 := by omega
      have b : (s.SP - 1).toNat < stackLength := by unfold stackLength; omega
      rw [if_pos a, taGet, if_pos b]
    · intro h
      by_cases a : 0 ≤ s.SP - 1
      · have b : ¬ (s.SP - 1).toNat < stackLength := by unfold stackLength; omega
        rw [if_pos a, taGet, if_neg b]
      · rw [if_neg a]

/-- Witness for C19: the call `2204` at `PC = 0x200` with stack pointer 3 stores the
return address `0x202` in slot 3, keeps slot 0, and leaves the stack pointer at 4
and `PC = 0x204`. -/
theorem call_and_return_stack_pointer_witness :
    (exec idleEnv shallowCallState).1.SP = 4 ∧
    (exec idleEnv shallowCallState).1.PC = JSNum.num 0x204 ∧
    (exec idleEnv shallowCallState).1.stack 3 = 0x202 ∧
    (exec idleEnv shallowCallState).1.stack 0 = shallowCallState.stack 0 :=
  have h := (call_and_return_stack_pointer idleEnv shallowCallState 0x200 0x204 (by rfl)
    (by rfl) (by decide)).1 (by decide)
  have hs := h.2.2.1 (by decide) (by decide)
  ⟨h.1, h.2.1, hs.1, hs.2 0 (by decide)⟩

/-- Counterexample for C19 as stated: a freshly loaded machine whose first word is
`00EE` is playing with stack pointer 0; after `exec` the stack pointer is `-1`,
outside `0..15`, and the popped `PC` is `undefined`, no entry of the call stack.
A playing machine with stack pointer 15 that executes `2204` ends with stack
pointer 16, not `(15 + 1) mod 16 = 0`. -/
theorem return_first_leaves_range :
    returnFirstState.playing = true ∧ returnFirstState.fetch = 0x00EE ∧
    returnFirstState.SP = 0 ∧
    (exec idleEnv returnFirstState).1.SP = -1 ∧
    ¬ (0 ≤ (exec idleEnv returnFirstState).1.SP ∧ (exec idleEnv returnFirstState).1.SP ≤ 15) ∧
    (exec idleEnv returnFirstState).1.PC = JSNum.undefined ∧
    fullStackCallState.playing = true ∧ fullStackCallState.fetch = 0x2000 + 0x204 ∧
    fullStackCallState.SP = 15 ∧
    (exec idleEnv fullStackCallState).1.SP = 16 ∧
    ¬ (0 ≤ (exec idleEnv fullStackCallState).1.SP ∧
      (exec idleEnv fullStackCallState).1.SP ≤ 15) := by
  decide

theorem has_class (t : InsTable) (w : Nat) : t.has (w &&& 0xF000) = true := by
  rw [and_F000]
  have hc : w / 4096 % 16 < 16 := Nat.mod_lt _ (by decide)
  generalize w / 4096 % 16 = c at hc
  interval_cases c <;> simp [InsTable.has, InsTable.get]

theorem orVal_andNum_key (t : InsTable) (c : Bool) (k : Nat) (b : Option Nat)
    (hb : ∃ j, b = some j ∧ t.has j = true) :
    ∃ j, orVal (andNum (c && t.has k) k) b = some j ∧ t.has j = true := by
  cases c
  · simpa [andNum, orVal] using hb
  · cases hk : t.has k
    · simpa [andNum, orVal] using hb
    · by_cases h0 : k = 0
      · simpa [andNum, orVal, h0] using hb
      · exact ⟨k, by simp [andNum, orVal, h0], hk⟩

theorem selected_isSome (t : InsTable) (w : Nat) : ∃ h, selected t w = some h := by
  have hlast : ∃ j, andNum (t.has (w &&& 0xF000)) (w &&& 0xF000) = some j ∧ t.has j = true :=
    ⟨w &&& 0xF000, by simp [andNum, has_class], has_class t w⟩
  obtain ⟨j, hj, hk⟩ :=
    orVal_andNum_key t (decide (w &&& 0xF000 = 0x8000)) (w &&& 0xF) _
      (orVal_andNum_key t (decide (w &&& 0xF000 = 0xE000)) (w &&& 0xFF) _
        (orVal_andNum_key t (decide (w &&& 0xF000 = 0xF000)) (w &&& 0xFF) _
          (orVal_andNum_key t (decide (w &&& 0xF000 = 0x0)) w _ hlast)))
  have hsome : (t.get j).isSome = true := hk
  obtain ⟨h, hh⟩ := Option.isSome_iff_exists.mp hsome
  exact ⟨h, by unfold selected dispatchKey; rw [hj]; exact hh⟩

theorem runEntry_playing (env : Env) (h : Handler) (s : Chip8) :
    (runEntry env h s).playing = s.playing := by
  cases h <;> simp only [runEntry, draw] <;> (try split_ifs) <;> rfl

theorem callEntry_playing (env : Env) (t : InsTable) (h : Handler) (s : Chip8) :
    (callEntry env t h s).1.playing = s.playing ∧
    ((callEntry env t h s).2 = none ∨ (callEntry env t h s).2 = some Exn.typeError) := by
  by_cases hh : h = Handler.h8000
  · subst hh
    unfold callEntry
    simp only []
    split_ifs with hk
    · cases hg : t.assign.get s.N
      · exact ⟨rfl, Or.inr rfl⟩
      · exact ⟨runEntry_playing _ _ _, Or.inl rfl⟩
    · exact ⟨rfl, Or.inl rfl⟩
  · have hc : callEntry env t h s = (runEntry env h s, none) := by
      cases h <;> first | rfl | exact absurd rfl hh
    rw [hc]
    exact ⟨runEntry_playing _ _ _, Or.inl rfl⟩

/-- Claim C20: for every playing state, whatever word is fetched, the dispatch key
computed by `exec` names an entry of the dispatch table that is a function, so the
undefined-opcode branch is never taken: `exec` leaves the run state playing and
never throws the undefined-opcode error. -/
theorem exec_never_clears_run_state (env : Env) (s : Chip8) (hp : s.playing = true) :
    (∃ h, selected s.table s.fetch = some h) ∧
    (exec env s).1.playing = true ∧
    (∀ c, (exec env s).2 ≠ some (Exn.undefinedOpcode c)) := by
  obtain ⟨h, hs⟩ := selected_isSome s.table s.fetch
  refine ⟨⟨h, hs⟩, ?_⟩
  rw [exec_of_selected env s h hp hs]
  obtain ⟨h1, h2⟩ := callEntry_playing env s.table h { s.decode with VF := s.decode.V 0xF }
  generalize callEntry env s.table h { s.decode with VF := s.decode.V 0xF } = r at h1 h2
  obtain ⟨s3, e⟩ := r
  have hd : s.decode.playing = true := hp
  simp only at h1 h2
  rcases h2 with rfl | rfl
  · exact ⟨by simp [h1, hd], by intro c; simp⟩
  · exact ⟨by simp [h1, hd], by intro c; simp⟩

/-- Witness for C20: the word `FFFF` selects the entry `0xF000` and the machine
keeps playing. -/
theorem exec_never_clears_run_state_witness :
    (∃ h, selected unknownWordState.table unknownWordState.fetch = some h) ∧
    (exec idleEnv unknownWordState).1.playing = true ∧
    (∀ c, (exec idleEnv unknownWordState).2 ≠ some (Exn.undefinedOpcode c)) :=
  exec_never_clears_run_state idleEnv unknownWordState (by rfl)

end Chip8
